import Mathlib

/-!
Verification development for the gophpparser repository (a PHP-like
source-to-AST front end written in Go).  The Go source is shallowly
embedded: the input string is a list of bytes (`List Nat`), the lexer and
parser are state-passing functions, loops are given explicit fuel (always
ample for the runs appearing in the theorems), and fallible results are
`Option`s.  Go's nil-interface subtleties are modelled explicitly where
they are observable.
-/

set_option maxRecDepth 10000

/-- Bytes of an ASCII string, used to write concrete inputs readably. -/
def bytesOf (s : String) : List Nat := s.data.map Char.toNat

/-- Byte of a byte list at an index (0 past the end), mirroring how the Go
code indexes its input string after an explicit bounds check. -/
def byteAt (s : List Nat) (i : Nat) : Nat := (s.get? i).getD 0

/-- Slice `s[a:b]` of a byte list, as used by the Go lexer to extract
literals. -/
def sliceBytes (s : List Nat) (a b : Nat) : List Nat := (s.drop a).take (b - a)

/-- Lookup in an association list keyed by byte strings; models a Go map
read (`m[k]`, with the `ok` flag as the `Option`). -/
def mapLookup {α : Type} : List (List Nat × α) → List Nat → Option α
  | [], _ => none
  | (k', v) :: rest, k => if k' = k then some v else mapLookup rest k

/-- Insert into an association list; models a Go map write `m[k] = v`
(replacing the binding when the key is present). -/
def mapInsert {α : Type} : List (List Nat × α) → List Nat → α → List (List Nat × α)
  | [], k, v => [(k, v)]
  | (k', v') :: rest, k, v =>
    if k' = k then (k', v) :: rest else (k', v') :: mapInsert rest k v

/-- TokenType from token.go, in declaration (iota) order. -/
inductive TokenType : Type where
  | ILLEGAL | EOF
  | IDENT | INT | FLOAT | STRING
  | PHP_OPEN | PHP_CLOSE
  | VARIABLE
  | ASSIGN | PLUS | MINUS | MULTIPLY | DIVIDE | MODULO | CONCAT | INCREMENT | DECREMENT
  | EQ | NOT_EQ | LT | GT | LTE | GTE
  | AND | OR | NOT
  | COMMA | SEMICOLON | COLON | LPAREN | RPAREN | LBRACE | RBRACE | LBRACKET | RBRACKET
  | FUNCTION | CLASS | IF | ELSE | ELSEIF | WHILE | FOR | FOREACH | RETURN | ECHO
  | PRINT | VAR | PUBLIC | PRIVATE | PROTECTED | STATIC | CONST | NEW | EXTENDS
  | IMPLEMENTS | INTERFACE | NAMESPACE | USE | REQUIRE | INCLUDE | TRUE | FALSE
  | NULL | ARRAY | BREAK | CONTINUE | DO | AS
  | ARROW | DOUBLE_ARROW | OBJECT_ACCESS | STATIC_ACCESS | NAMESPACE_SEPARATOR
  | TRY | CATCH | FINALLY | THROW | EXCEPTION | CLOSURE | YIELD | YIELD_FROM
  | QUESTION | QUESTION_QUESTION | QUESTION_QUESTION_ASSIGN | SPACESHIP | QUESTION_ARROW
  | TRAIT | ABSTRACT | FINAL | GLOBAL | LIST | UNSET | ISSET | EMPTY | CLONE
  | INSTANCEOF | MATCH
  | UNION_TYPE | INTERSECTION_TYPE
  | REFERENCE | VARIABLE_VAR
  | INCLUDE_ONCE | REQUIRE_ONCE
  | MAGIC_CONSTANT
  | ARROW_FUNCTION
  deriving DecidableEq, Repr

open TokenType

/-- Numeric (iota) value of a TokenType; token.go declares the enum with
`iota`, and the default branch of its String method prints this number. -/
def TokenType.iotaVal : TokenType → Nat
  | ILLEGAL => 0 | EOF => 1
  | IDENT => 2 | INT => 3 | FLOAT => 4 | STRING => 5
  | PHP_OPEN => 6 | PHP_CLOSE => 7
  | VARIABLE => 8
  | ASSIGN => 9 | PLUS => 10 | MINUS => 11 | MULTIPLY => 12 | DIVIDE => 13
  | MODULO => 14 | CONCAT => 15 | INCREMENT => 16 | DECREMENT => 17
  | EQ => 18 | NOT_EQ => 19 | .LT => 20 | .GT => 21 | LTE => 22 | GTE => 23
  | AND => 24 | OR => 25 | NOT => 26
  | COMMA => 27 | SEMICOLON => 28 | COLON => 29 | LPAREN => 30 | RPAREN => 31
  | LBRACE => 32 | RBRACE => 33 | LBRACKET => 34 | RBRACKET => 35
  | FUNCTION => 36 | CLASS => 37 | IF => 38 | ELSE => 39 | ELSEIF => 40
  | WHILE => 41 | FOR => 42 | FOREACH => 43 | RETURN => 44 | ECHO => 45
  | PRINT => 46 | VAR => 47 | PUBLIC => 48 | PRIVATE => 49 | PROTECTED => 50
  | STATIC => 51 | CONST => 52 | NEW => 53 | EXTENDS => 54
  | IMPLEMENTS => 55 | INTERFACE => 56 | NAMESPACE => 57 | USE => 58
  | REQUIRE => 59 | INCLUDE => 60 | TRUE => 61 | FALSE => 62
  | NULL => 63 | ARRAY => 64 | BREAK => 65 | CONTINUE => 66 | DO => 67 | AS => 68
  | ARROW => 69 | DOUBLE_ARROW => 70 | OBJECT_ACCESS => 71 | STATIC_ACCESS => 72
  | NAMESPACE_SEPARATOR => 73
  | TRY => 74 | CATCH => 75 | FINALLY => 76 | THROW => 77 | EXCEPTION => 78
  | CLOSURE => 79 | YIELD => 80 | YIELD_FROM => 81
  | QUESTION => 82 | QUESTION_QUESTION => 83 | QUESTION_QUESTION_ASSIGN => 84
  | SPACESHIP => 85 | QUESTION_ARROW => 86
  | TRAIT => 87 | ABSTRACT => 88 | FINAL => 89 | GLOBAL => 90 | LIST => 91
  | UNSET => 92 | ISSET => 93 | EMPTY => 94 | CLONE => 95
  | INSTANCEOF => 96 | MATCH => 97
  | UNION_TYPE => 98 | INTERSECTION_TYPE => 99
  | REFERENCE => 100 | VARIABLE_VAR => 101
  | INCLUDE_ONCE => 102 | REQUIRE_ONCE => 103
  | MAGIC_CONSTANT => 104
  | ARROW_FUNCTION => 105

/-- String method of TokenType (token.go); the parser interpolates it into
its error messages via `%s`.  Types missing from the Go switch fall through
to the `KEYWORD(%d)` default. -/
def tokenTypeString (t : TokenType) : String :=
  match t with
  | ILLEGAL => "ILLEGAL" | EOF => "EOF" | IDENT => "IDENT" | INT => "INT"
  | FLOAT => "FLOAT" | STRING => "STRING" | PHP_OPEN => "PHP_OPEN"
  | PHP_CLOSE => "PHP_CLOSE" | VARIABLE => "VARIABLE" | ASSIGN => "ASSIGN"
  | PLUS => "PLUS" | MINUS => "MINUS" | MULTIPLY => "MULTIPLY"
  | DIVIDE => "DIVIDE" | MODULO => "MODULO" | CONCAT => "CONCAT"
  | INCREMENT => "INCREMENT" | DECREMENT => "DECREMENT" | EQ => "EQ"
  | NOT_EQ => "NOT_EQ" | .LT => "LT" | .GT => "GT" | LTE => "LTE" | GTE => "GTE"
  | AND => "AND" | OR => "OR" | NOT => "NOT" | COMMA => "COMMA"
  | SEMICOLON => "SEMICOLON" | COLON => "COLON" | LPAREN => "LPAREN"
  | RPAREN => "RPAREN" | LBRACE => "LBRACE" | RBRACE => "RBRACE"
  | LBRACKET => "LBRACKET" | RBRACKET => "RBRACKET" | BREAK => "BREAK"
  | CONTINUE => "CONTINUE" | DO => "DO" | AS => "AS" | ARROW => "ARROW"
  | DOUBLE_ARROW => "DOUBLE_ARROW" | OBJECT_ACCESS => "OBJECT_ACCESS"
  | STATIC_ACCESS => "STATIC_ACCESS" | NAMESPACE_SEPARATOR => "NAMESPACE_SEPARATOR"
  | TRY => "TRY" | CATCH => "CATCH" | FINALLY => "FINALLY" | THROW => "THROW"
  | EXCEPTION => "EXCEPTION" | CLOSURE => "CLOSURE" | YIELD => "YIELD"
  | YIELD_FROM => "YIELD_FROM" | QUESTION => "QUESTION"
  | QUESTION_QUESTION => "QUESTION_QUESTION"
  | QUESTION_QUESTION_ASSIGN => "QUESTION_QUESTION_ASSIGN"
  | SPACESHIP => "SPACESHIP" | QUESTION_ARROW => "QUESTION_ARROW"
  | TRAIT => "TRAIT" | ABSTRACT => "ABSTRACT" | FINAL => "FINAL"
  | GLOBAL => "GLOBAL" | LIST => "LIST" | UNSET => "UNSET" | ISSET => "ISSET"
  | EMPTY => "EMPTY" | CLONE => "CLONE" | INSTANCEOF => "INSTANCEOF"
  | MATCH => "MATCH" | UNION_TYPE => "UNION_TYPE"
  | INTERSECTION_TYPE => "INTERSECTION_TYPE" | REFERENCE => "REFERENCE"
  | VARIABLE_VAR => "VARIABLE_VAR" | INCLUDE_ONCE => "INCLUDE_ONCE"
  | REQUIRE_ONCE => "REQUIRE_ONCE" | MAGIC_CONSTANT => "MAGIC_CONSTANT"
  | ARROW_FUNCTION => "ARROW_FUNCTION"
  | _ => "KEYWORD(" ++ toString t.iotaVal ++ ")"

/-- Token from token.go.  The `Position` field of the Go struct is never
assigned or read anywhere in the repository and is omitted. -/
structure Token where
  type : TokenType
  literal : List Nat
  line : Nat
  column : Nat
  deriving DecidableEq, Repr

/-- Keyword table from token.go. -/
def keywords : List (List Nat × TokenType) :=
  [ (bytesOf "function", FUNCTION), (bytesOf "class", CLASS), (bytesOf "if", IF),
    (bytesOf "else", ELSE), (bytesOf "elseif", ELSEIF), (bytesOf "while", WHILE),
    (bytesOf "for", FOR), (bytesOf "foreach", FOREACH), (bytesOf "return", RETURN),
    (bytesOf "echo", ECHO), (bytesOf "print", PRINT), (bytesOf "var", VAR),
    (bytesOf "public", PUBLIC), (bytesOf "private", PRIVATE),
    (bytesOf "protected", PROTECTED), (bytesOf "static", STATIC),
    (bytesOf "const", CONST), (bytesOf "new", NEW), (bytesOf "extends", EXTENDS),
    (bytesOf "implements", IMPLEMENTS), (bytesOf "interface", INTERFACE),
    (bytesOf "namespace", NAMESPACE), (bytesOf "use", USE),
    (bytesOf "require", REQUIRE), (bytesOf "include", INCLUDE),
    (bytesOf "true", TRUE), (bytesOf "false", FALSE), (bytesOf "null", NULL),
    (bytesOf "array", ARRAY), (bytesOf "break", BREAK),
    (bytesOf "continue", CONTINUE), (bytesOf "do", DO), (bytesOf "as", AS),
    (bytesOf "try", TRY), (bytesOf "catch", CATCH), (bytesOf "finally", FINALLY),
    (bytesOf "throw", THROW), (bytesOf "exception", EXCEPTION),
    (bytesOf "closure", CLOSURE), (bytesOf "yield", YIELD),
    (bytesOf "trait", TRAIT), (bytesOf "abstract", ABSTRACT),
    (bytesOf "final", FINAL), (bytesOf "global", GLOBAL), (bytesOf "list", LIST),
    (bytesOf "unset", UNSET), (bytesOf "isset", ISSET), (bytesOf "empty", EMPTY),
    (bytesOf "clone", CLONE), (bytesOf "instanceof", INSTANCEOF),
    (bytesOf "match", MATCH), (bytesOf "include_once", INCLUDE_ONCE),
    (bytesOf "require_once", REQUIRE_ONCE), (bytesOf "fn", ARROW_FUNCTION) ]

/-- LookupIdent from token.go. -/
def LookupIdent (ident : List Nat) : TokenType :=
  (mapLookup keywords ident).getD IDENT

/-- isLetter from the lexer: ASCII letters, underscore, and any byte above
127. -/
def isLetter (c : Nat) : Bool :=
  decide (97 ≤ c ∧ c ≤ 122) || decide (65 ≤ c ∧ c ≤ 90) || c == 95 || decide (127 < c)

/-- isDigit from the lexer. -/
def isDigit (c : Nat) : Bool := decide (48 ≤ c ∧ c ≤ 57)

/-- Lexer state (lexer.go): the input bytes, the byte offsets of the
current and the next character, the current character (0 at end of input),
and the 1-based line / running column counters. -/
structure Lexer where
  input : List Nat
  position : Nat
  readPosition : Nat
  ch : Nat
  line : Nat
  column : Nat
  deriving DecidableEq, Repr

/-- readChar: load the character at `readPosition` (0 when past the end),
advance the offsets, and update line/column based on the newly loaded
character. -/
def Lexer.readChar (l : Lexer) : Lexer :=
  let c := if l.readPosition ≥ l.input.length then 0 else byteAt l.input l.readPosition
  let l' : Lexer := { l with ch := c, position := l.readPosition, readPosition := l.readPosition + 1 }
  if c = 10 then { l' with line := l'.line + 1, column := 0 }
  else { l' with column := l'.column + 1 }

/-- New from the lexer: line starts at 1, column at 0, then one readChar. -/
def Lexer.New (input : List Nat) : Lexer :=
  Lexer.readChar { input := input, position := 0, readPosition := 0, ch := 0, line := 1, column := 0 }

/-- peekChar. -/
def Lexer.peekChar (l : Lexer) : Nat :=
  if l.readPosition ≥ l.input.length then 0 else byteAt l.input l.readPosition

/-- peekCharAt. -/
def Lexer.peekCharAt (l : Lexer) (offset : Nat) : Nat :=
  if l.readPosition + offset ≥ l.input.length then 0 else byteAt l.input (l.readPosition + offset)

/-- skipWhitespace loop (space, tab, LF, CR), with fuel for the `for`. -/
def Lexer.skipWhitespace : Nat → Lexer → Lexer
  | 0, l => l
  | fuel + 1, l =>
    if l.ch = 32 ∨ l.ch = 9 ∨ l.ch = 10 ∨ l.ch = 13 then
      Lexer.skipWhitespace fuel l.readChar
    else l

/-- Character-consuming loop of readIdentifier. -/
def Lexer.identLoop : Nat → Lexer → Lexer
  | 0, l => l
  | fuel + 1, l =>
    if isLetter l.ch || isDigit l.ch then Lexer.identLoop fuel l.readChar else l

/-- readIdentifier: consume letters/digits and slice the input. -/
def Lexer.readIdentifier (fuel : Nat) (l : Lexer) : List Nat × Lexer :=
  let pos := l.position
  let l' := Lexer.identLoop fuel l
  (sliceBytes l'.input pos l'.position, l')

/-- Digit-consuming loop of readNumber. -/
def Lexer.digitLoop : Nat → Lexer → Lexer
  | 0, l => l
  | fuel + 1, l => if isDigit l.ch then Lexer.digitLoop fuel l.readChar else l

/-- readNumber: digits, then optionally a dot followed by a digit makes it
a FLOAT and consumes a second digit run. -/
def Lexer.readNumber (fuel : Nat) (l : Lexer) : TokenType × List Nat × Lexer :=
  let pos := l.position
  let l1 := Lexer.digitLoop fuel l
  if l1.ch = 46 ∧ isDigit l1.peekChar then
    let l2 := Lexer.digitLoop fuel l1.readChar
    (FLOAT, sliceBytes l2.input pos l2.position, l2)
  else
    (INT, sliceBytes l1.input pos l1.position, l1)

/-- Scanning loop of readString: read until the delimiter or end of input,
a backslash unconditionally skips the next character. -/
def Lexer.stringLoop : Nat → Nat → Lexer → Lexer
  | 0, _, l => l
  | fuel + 1, d, l =>
    let l := l.readChar
    if l.ch = d ∨ l.ch = 0 then l
    else if l.ch = 92 then Lexer.stringLoop fuel d l.readChar
    else Lexer.stringLoop fuel d l

/-- readString: literal is the raw text between the delimiters. -/
def Lexer.readString (fuel : Nat) (d : Nat) (l : Lexer) : List Nat × Lexer :=
  let pos := l.position + 1
  let l' := Lexer.stringLoop fuel d l
  (sliceBytes l'.input pos l'.position, l')

/-- Loop skipping to end of line (used by `//` and `#` comments). -/
def Lexer.lineCommentLoop : Nat → Lexer → Lexer
  | 0, l => l
  | fuel + 1, l =>
    if l.ch ≠ 10 ∧ l.ch ≠ 0 then Lexer.lineCommentLoop fuel l.readChar else l

/-- Loop skipping a block comment body up to `*/` or end of input. -/
def Lexer.blockCommentLoop : Nat → Lexer → Lexer
  | 0, l => l
  | fuel + 1, l =>
    if l.ch = 0 then l
    else if l.ch = 42 ∧ l.peekChar = 47 then l.readChar.readChar
    else Lexer.blockCommentLoop fuel l.readChar

/-- skipComment: `//` and `#` skip to end of line, a block comment skips to
the closing marker. -/
def Lexer.skipComment (fuel : Nat) (l : Lexer) : Lexer :=
  if l.ch = 47 ∧ l.peekChar = 47 then Lexer.lineCommentLoop fuel l
  else if l.ch = 47 ∧ l.peekChar = 42 then Lexer.blockCommentLoop fuel l.readChar.readChar
  else if l.ch = 35 then Lexer.lineCommentLoop fuel l
  else l

/-- newToken helper. -/
def newToken (t : TokenType) (ch : Nat) (line column : Nat) : Token :=
  { type := t, literal := [ch], line := line, column := column }

/-- NextToken (lexer.go).  The outer fuel bounds the comment-skip
recursion; the inner loops each receive ample fuel derived from the input
length.  Branches that Go ends with the trailing `l.readChar()` apply it;
the VARIABLE, identifier and number branches return early exactly as the
source does. -/
def Lexer.NextToken : Nat → Lexer → Token × Lexer
  | 0, l => ({ type := EOF, literal := [], line := l.line, column := l.column }, l)
  | fuel + 1, l0 =>
    let fl := l0.input.length + 2
    let l := Lexer.skipWhitespace fl l0
    match l.ch with
    | 61 => -- '='
      if l.peekChar = 61 then
        let l := l.readChar
        ({ type := EQ, literal := [61, l.ch], line := l.line, column := l.column }, l.readChar)
      else if l.peekChar = 62 then
        let l := l.readChar
        ({ type := DOUBLE_ARROW, literal := [61, l.ch], line := l.line, column := l.column }, l.readChar)
      else
        (newToken ASSIGN l.ch l.line l.column, l.readChar)
    | 43 => -- '+'
      if l.peekChar = 43 then
        let l := l.readChar
        ({ type := INCREMENT, literal := [43, l.ch], line := l.line, column := l.column }, l.readChar)
      else
        (newToken PLUS l.ch l.line l.column, l.readChar)
    | 45 => -- '-'
      if l.peekChar = 62 then
        let l := l.readChar
        ({ type := OBJECT_ACCESS, literal := [45, l.ch], line := l.line, column := l.column }, l.readChar)
      else
        (newToken MINUS l.ch l.line l.column, l.readChar)
    | 42 => (newToken MULTIPLY l.ch l.line l.column, l.readChar) -- '*'
    | 47 => -- '/'
      if l.peekChar = 47 then
        Lexer.NextToken fuel (Lexer.skipComment fl l)
      else
        (newToken DIVIDE l.ch l.line l.column, l.readChar)
    | 37 => (newToken MODULO l.ch l.line l.column, l.readChar) -- '%'
    | 46 => (newToken CONCAT l.ch l.line l.column, l.readChar) -- '.'
    | 33 => -- '!'
      if l.peekChar = 61 then
        let l := l.readChar
        ({ type := NOT_EQ, literal := [33, l.ch], line := l.line, column := l.column }, l.readChar)
      else
        (newToken NOT l.ch l.line l.column, l.readChar)
    | 60 => -- '<'
      if l.peekChar = 61 ∧ l.peekCharAt 1 = 62 then
        let l := l.readChar.readChar
        ({ type := SPACESHIP, literal := [60, 61, 62], line := l.line, column := l.column }, l.readChar)
      else if l.peekChar = 61 then
        let l := l.readChar
        ({ type := LTE, literal := [60, l.ch], line := l.line, column := l.column }, l.readChar)
      else if l.peekChar = 63 then
        let l := l.readChar
        if l.peekChar = 112 then
          let l := l.readChar
          if l.peekChar = 104 then
            let l := l.readChar
            if l.peekChar = 112 then
              let l := l.readChar
              ({ type := PHP_OPEN, literal := bytesOf "<?php", line := l.line, column := l.column }, l.readChar)
            else (newToken LT 60 l.line l.column, l.readChar)
          else (newToken LT 60 l.line l.column, l.readChar)
        else (newToken LT 60 l.line l.column, l.readChar)
      else
        (newToken LT l.ch l.line l.column, l.readChar)
    | 62 => -- '>'
      if l.peekChar = 61 then
        let l := l.readChar
        ({ type := GTE, literal := [62, l.ch], line := l.line, column := l.column }, l.readChar)
      else
        (newToken GT l.ch l.line l.column, l.readChar)
    | 38 => -- '&'
      if l.peekChar = 38 then
        let l := l.readChar
        ({ type := AND, literal := [38, l.ch], line := l.line, column := l.column }, l.readChar)
      else
        (newToken ILLEGAL l.ch l.line l.column, l.readChar)
    | 124 => -- '|'
      if l.peekChar = 124 then
        let l := l.readChar
        ({ type := OR, literal := [124, l.ch], line := l.line, column := l.column }, l.readChar)
      else
        (newToken ILLEGAL l.ch l.line l.column, l.readChar)
    | 63 => -- '?'
      if l.peekChar = 62 then
        let l := l.readChar
        ({ type := PHP_CLOSE, literal := [63, l.ch], line := l.line, column := l.column }, l.readChar)
      else if l.peekChar = 63 then
        let l := l.readChar
        if l.peekChar = 61 then
          let l := l.readChar
          ({ type := QUESTION_QUESTION_ASSIGN, literal := [63, 63, 61], line := l.line, column := l.column }, l.readChar)
        else
          ({ type := QUESTION_QUESTION, literal := [63, l.ch], line := l.line, column := l.column }, l.readChar)
      else if l.peekChar = 45 ∧ l.peekCharAt 1 = 62 then
        let l := l.readChar.readChar
        ({ type := QUESTION_ARROW, literal := [63, 45, 62], line := l.line, column := l.column }, l.readChar)
      else
        (newToken QUESTION l.ch l.line l.column, l.readChar)
    | 44 => (newToken COMMA l.ch l.line l.column, l.readChar) -- ','
    | 59 => (newToken SEMICOLON l.ch l.line l.column, l.readChar) -- ';'
    | 40 => (newToken LPAREN l.ch l.line l.column, l.readChar) -- '('
    | 41 => (newToken RPAREN l.ch l.line l.column, l.readChar) -- ')'
    | 123 => (newToken LBRACE l.ch l.line l.column, l.readChar)
    | 125 => (newToken RBRACE l.ch l.line l.column, l.readChar)
    | 91 => (newToken LBRACKET l.ch l.line l.column, l.readChar) -- '['
    | 93 => (newToken RBRACKET l.ch l.line l.column, l.readChar) -- ']'
    | 34 => -- '"'
      let r := Lexer.readString fl 34 l
      ({ type := STRING, literal := r.1, line := r.2.line, column := r.2.column }, r.2.readChar)
    | 39 => -- '\''
      let r := Lexer.readString fl 39 l
      ({ type := STRING, literal := r.1, line := r.2.line, column := r.2.column }, r.2.readChar)
    | 36 => -- '$': early return, no trailing readChar
      let r := Lexer.readIdentifier fl l.readChar
      ({ type := VARIABLE, literal := 36 :: r.1, line := r.2.line, column := r.2.column }, r.2)
    | 58 => -- ':'
      if l.peekChar = 58 then
        let l := l.readChar
        ({ type := STATIC_ACCESS, literal := [58, l.ch], line := l.line, column := l.column }, l.readChar)
      else
        (newToken COLON l.ch l.line l.column, l.readChar)
    | 92 => (newToken NAMESPACE_SEPARATOR l.ch l.line l.column, l.readChar) -- '\'
    | 0 =>
      ({ type := EOF, literal := [], line := l.line, column := l.column }, l.readChar)
    | c =>
      if isLetter c then -- identifier/keyword: early return
        let r := Lexer.readIdentifier fl l
        ({ type := LookupIdent r.1, literal := r.1, line := l.line, column := l.column }, r.2)
      else if isDigit c then -- number: early return, position taken after the run
        let r := Lexer.readNumber fl l
        ({ type := r.1, literal := r.2.1, line := r.2.2.line, column := r.2.2.column }, r.2.2)
      else
        (newToken ILLEGAL c l.line l.column, l.readChar)

/-- NextToken with the standard ample fuel. -/
def Lexer.nextTok (l : Lexer) : Token × Lexer :=
  Lexer.NextToken (l.input.length + 2) l

/-- Collect the tokens of an input up to (excluding) the first EOF. -/
def tokenizeLoop : Nat → Lexer → List Token
  | 0, _ => []
  | fuel + 1, l =>
    let r := l.nextTok
    if r.1.type = EOF then [] else r.1 :: tokenizeLoop fuel r.2

/-- Token stream of a byte input (EOF excluded). -/
def tokenize (s : List Nat) : List Token :=
  tokenizeLoop (s.length + 2) (Lexer.New s)

/-- lower(c) from Go's strconv: fold an ASCII letter to lower case. -/
def lowerByte (c : Nat) : Nat := c ||| 32

/-- underscoreOK from Go's strconv/atoi.go: underscores must separate
successive digits (or follow a base prefix).  `saw` runs over the same
four character classes as the Go code. -/
def underscoreOKLoop (hex : Bool) : List Nat → Nat → Bool
  | [], saw => saw ≠ 95
  | c :: cs, saw =>
    if (48 ≤ c ∧ c ≤ 57) ∨ (hex ∧ 97 ≤ lowerByte c ∧ lowerByte c ≤ 102) then
      underscoreOKLoop hex cs 48
    else if c = 95 then
      if saw ≠ 48 then false else underscoreOKLoop hex cs 95
    else if saw = 95 then false
    else underscoreOKLoop hex cs 33

/-- underscoreOK on a full numeric string (optional sign, optional base
prefix, then the digit run). -/
def underscoreOK (s : List Nat) : Bool :=
  let s1 := match s with
    | c :: rest => if c = 45 ∨ c = 43 then rest else s
    | [] => s
  match s1 with
  | 48 :: c :: rest =>
    if (lowerByte c = 98 ∨ lowerByte c = 111 ∨ lowerByte c = 120) ∧ rest ≠ [] then
      underscoreOKLoop (lowerByte c = 120) rest 48
    else underscoreOKLoop false s1 94 -- '^': beginning of number
  | _ => underscoreOKLoop false s1 94

/-- Digit-accumulation loop of Go's strconv.ParseUint.  Returns the exact
value as an unbounded natural (overflow is checked by the caller against
the int64 cutoff, which subsumes Go's incremental uint64 overflow checks
for the purposes of the error/no-error decision and the surviving value),
plus whether an underscore was seen.  `none` is Go's syntax error. -/
def parseUintDigits (base : Nat) : List Nat → Nat → Bool → Option (Nat × Bool)
  | [], n, u => some (n, u)
  | c :: cs, n, u =>
    if c = 95 then parseUintDigits base cs n true -- allowed: base was given as 0
    else
      let d : Option Nat :=
        if 48 ≤ c ∧ c ≤ 57 then some (c - 48)
        else if 97 ≤ lowerByte c ∧ lowerByte c ≤ 122 then some (lowerByte c - 97 + 10)
        else none
      match d with
      | none => none
      | some d => if d ≥ base then none else parseUintDigits base cs (n * base + d) u

/-- Go strconv.ParseUint(s, 0, 64): base auto-detection (`0b`/`0o`/`0x`
prefixes, a bare leading `0` means octal), digit accumulation, underscore
validation. -/
def goParseUint0 (s : List Nat) : Option Nat :=
  if s = [] then none
  else
    let br : Nat × List Nat :=
      match s with
      | 48 :: c :: rest =>
        if lowerByte c = 98 ∧ rest ≠ [] then (2, rest)
        else if lowerByte c = 111 ∧ rest ≠ [] then (8, rest)
        else if lowerByte c = 120 ∧ rest ≠ [] then (16, rest)
        else (8, c :: rest)
      | 48 :: [] => (8, [])
      | _ => (10, s)
    match parseUintDigits br.1 br.2 0 false with
    | none => none
    | some (n, sawU) => if sawU ∧ ¬ underscoreOK s then none else some n

/-- Go strconv.ParseInt(s, 0, 64), as used by parseIntegerLiteral: `none`
exactly when Go reports an error (syntax or int64 range). -/
def goParseInt (s : List Nat) : Option Int :=
  if s = [] then none
  else
    let sg : Bool × List Nat :=
      match s with
      | 43 :: rest => (false, rest)
      | 45 :: rest => (true, rest)
      | _ => (false, s)
    match goParseUint0 sg.2 with
    | none => none
    | some un =>
      if sg.1 then (if un > 2 ^ 63 then none else some (-(un : Int)))
      else (if un ≥ 2 ^ 63 then none else some (un : Int))

/-- Acceptance by Go strconv.ParseFloat of the literals the lexer can
produce.  Modelled from the spec: readNumber only emits a nonempty decimal
digit run, optionally followed by `.` and a further nonempty digit run,
and ParseFloat accepts exactly those among such strings; the float64 value
itself is not modelled (no claim depends on it) and the node keeps the raw
literal. -/
def goParseFloatOk (s : List Nat) : Bool :=
  let digits := fun (l : List Nat) => decide (l ≠ []) && l.all (fun c => decide (48 ≤ c ∧ c ≤ 57))
  match s.splitOn 46 with
  | [a] => digits a
  | [a, b] => digits a && digits b
  | _ => false

/-- Go's `%q` rendering of a scanned literal as it appears in the
"could not parse %q as integer/float" parser diagnostics: the text in
double quotes, escaping quote and backslash (the literals that reach these
diagnostics are digit runs, which need no further escaping). -/
def goQuote (s : List Nat) : String :=
  "\"" ++ String.mk (s.foldr (fun c acc =>
      if c = 34 then '\\' :: '"' :: acc
      else if c = 92 then '\\' :: '\\' :: acc
      else Char.ofNat c :: acc) []) ++ "\""

/-- Identifier AST leaf (ast.go `Identifier`): token plus value text. -/
structure IdentNode where
  token : Token
  value : List Nat
  deriving DecidableEq, Repr

/-- Variable AST leaf (ast.go `Variable`): token plus the name with the
`$` sigil stripped. -/
structure VarNode where
  token : Token
  name : List Nat
  deriving DecidableEq, Repr

/-- TraitUse node (field of ClassDeclaration). -/
structure TraitUseNode where
  token : Token
  traits : List IdentNode
  deriving DecidableEq, Repr

/-- InterfaceMethod node (field of InterfaceDeclaration). -/
structure InterfaceMethodNode where
  token : Token
  visibility : List Nat
  name : IdentNode
  parameters : List VarNode
  deriving DecidableEq, Repr

/-- Statement kinds that parseStatement can return as a nil typed pointer
wrapped in the Statement interface (Go's typed-nil interface value, which
passes the `stmt != nil` check in ParseProgram). -/
inductive NilKind : Type where
  | functionDeclaration | classDeclaration | interfaceDeclaration
  | traitDeclaration | constantDeclaration | namespaceDeclaration
  | useStatement | tryStatement | ifStatement | forStatement
  | whileStatement | foreachStatement
  deriving DecidableEq, Repr

mutual

/-- Expression nodes (ast.go).  Children typed `Expression` in Go can hold
a nil interface (parse functions return nil on failure), hence
`Option Expr`; fields that are always populated before a node is returned
keep their direct type. -/
inductive Expr : Type where
  | identifier (node : IdentNode)
  | varE (node : VarNode)
  | integerLiteral (token : Token) (value : Int)
  | floatLiteral (token : Token) (literal : List Nat)
  | stringLiteral (token : Token) (value : List Nat)
  | interpolatedString (token : Token) (parts : List Expr)
  | booleanLiteral (token : Token) (value : Bool)
  | prefixExpression (token : Token) (operator : List Nat) (right : Option Expr)
  | infixExpression (token : Token) (left : Option Expr) (operator : List Nat) (right : Option Expr)
  | postfixExpression (token : Token) (left : Option Expr) (operator : List Nat)
  | ternaryExpression (token : Token) (condition trueValue falseValue : Option Expr)
  | assignmentExpression (token : Token) (name : VarNode) (value : Option Expr)
  | callExpression (token : Token) (function : Option Expr) (arguments : List (Option Expr))
  | newExpression (token : Token) (className : IdentNode) (arguments : List (Option Expr))
  | objectAccessExpression (token : Token) (object : Option Expr) (property : Option Expr)
  | staticAccessExpression (token : Token) (cls : Option Expr) (property : Option Expr)
  | indexExpression (token : Token) (left : Option Expr) (index : Option Expr)
  | arrayLiteral (token : Token) (elements : List (Option Expr))
  | associativeArrayLiteral (token : Token) (pairs : List (Option Expr × Option Expr))
  | anonymousFunction (token : Token) (parameters : List VarNode) (useClause : List VarNode)
      (bodyToken : Token) (body : List Stmt)
  | yieldExpression (token : Token) (key value : Option Expr)

/-- Statement nodes (ast.go).  `nilStmt k` is the nil typed pointer of
kind `k` inside the Statement interface.  Block statements are inlined as
their token plus statement list. -/
inductive Stmt : Type where
  | nilStmt (kind : NilKind)
  | expressionStatement (token : Token) (expression : Option Expr)
  | blockStatement (token : Token) (statements : List Stmt)
  | functionDeclaration (token : Token) (name : IdentNode) (parameters : List VarNode)
      (bodyToken : Token) (body : List Stmt)
  | returnStatement (token : Token) (returnValue : Option Expr)
  | ifStatement (token : Token) (condition : Option Expr) (consequenceToken : Token)
      (consequence : List Stmt) (alternative : Option (Token × List Stmt))
  | echoStatement (token : Token) (values : List (Option Expr))
  | forStatement (token : Token) (init condition update : Option Expr)
      (bodyToken : Token) (body : List Stmt)
  | whileStatement (token : Token) (condition : Option Expr) (bodyToken : Token) (body : List Stmt)
  | foreachStatement (token : Token) (array : Option Expr) (key : Option VarNode)
      (value : VarNode) (bodyToken : Token) (body : List Stmt)
  | breakStatement (token : Token) (level : Option Expr)
  | continueStatement (token : Token) (level : Option Expr)
  | classDeclaration (token : Token) (name : IdentNode) (superClass : Option IdentNode)
      (interfaces : List IdentNode) (traitUses : List TraitUseNode)
      (properties : List PropNode) (methods : List MethodNode) (constants : List ConstNode)
  | interfaceDeclaration (token : Token) (name : IdentNode) (methods : List InterfaceMethodNode)
  | traitDeclaration (token : Token) (name : IdentNode) (properties : List PropNode)
      (methods : List MethodNode)
  | constantDeclaration (node : ConstNode)
  | namespaceDeclaration (token : Token) (name : IdentNode)
  | useStatement (token : Token) (nsName : IdentNode) (aliasName : Option IdentNode)
  | tryStatement (token : Token) (bodyToken : Token) (body : List Stmt)
      (catches : List CatchNode) (finallyBlock : Option (Token × List Stmt))
  | throwStatement (token : Token) (expression : Option Expr)

/-- PropertyDeclaration node (class/trait member). -/
inductive PropNode : Type where
  | mk (token : Token) (visibility : List Nat) (static : Bool) (name : VarNode)
      (value : Option Expr)

/-- MethodDeclaration node (class/trait member). -/
inductive MethodNode : Type where
  | mk (token : Token) (visibility : List Nat) (static : Bool) (name : IdentNode)
      (parameters : List VarNode) (bodyToken : Token) (body : List Stmt)

/-- ConstantDeclaration node (top-level statement and class member). -/
inductive ConstNode : Type where
  | mk (token : Token) (visibility : List Nat) (name : IdentNode) (value : Option Expr)

/-- CatchClause node. -/
inductive CatchNode : Type where
  | mk (token : Token) (exceptionType : Option IdentNode) (varNode : VarNode)
      (bodyToken : Token) (body : List Stmt)

end

/-- Program (ast.go): the ordered top-level statements. -/
structure Program where
  statements : List Stmt

/-- Split a byte string on a separator byte (Go strings.Split). -/
def splitOnByte (b : Nat) : List Nat → List (List Nat)
  | [] => [[]]
  | c :: rest =>
    let r := splitOnByte b rest
    if c = b then [] :: r
    else match r with
      | g :: gs => (c :: g) :: gs
      | [] => [[c]]

/-- Operator precedence levels (parser.go iota block).  `precPrefixUnary`
and `precCall` are Go's PREFIX and CALL. -/
def precLowest : Nat := 1
def precTernary : Nat := 2
def precEquals : Nat := 3
def precLessGreater : Nat := 4
def precSum : Nat := 5
def precProduct : Nat := 6
def precPrefixUnary : Nat := 7
def precCall : Nat := 8

/-- The `precedences` map of parser.go.  ASSIGN, AND and OR have no entry. -/
def precedences : TokenType → Option Nat
  | QUESTION => some precTernary
  | QUESTION_QUESTION => some precEquals
  | QUESTION_QUESTION_ASSIGN => some precEquals
  | QUESTION_ARROW => some precCall
  | EQ => some precEquals
  | NOT_EQ => some precEquals
  | .LT => some precLessGreater
  | .GT => some precLessGreater
  | LTE => some precLessGreater
  | GTE => some precLessGreater
  | SPACESHIP => some precLessGreater
  | PLUS => some precSum
  | MINUS => some precSum
  | CONCAT => some precSum
  | DIVIDE => some precProduct
  | MULTIPLY => some precProduct
  | MODULO => some precProduct
  | LPAREN => some precCall
  | OBJECT_ACCESS => some precCall
  | STATIC_ACCESS => some precCall
  | _ => none

/-- Token kinds registered in prefixParseFns by NewParser. -/
def hasPrefixFn : TokenType → Bool
  | IDENT | VARIABLE | INT | FLOAT | STRING | TRUE | FALSE
  | NOT | MINUS | INCREMENT | DECREMENT | NEW | FUNCTION | YIELD
  | LPAREN | LBRACKET => true
  | _ => false

/-- Token kinds registered in infixParseFns by NewParser. -/
def hasInfixFn : TokenType → Bool
  | PLUS | MINUS | MULTIPLY | DIVIDE | MODULO | CONCAT | EQ | NOT_EQ
  | .LT | .GT | LTE | GTE | SPACESHIP | AND | OR | QUESTION
  | QUESTION_QUESTION | QUESTION_QUESTION_ASSIGN | QUESTION_ARROW
  | ASSIGN | LPAREN | LBRACKET | INCREMENT | DECREMENT
  | OBJECT_ACCESS | STATIC_ACCESS => true
  | _ => false

/-- Parser state (parser.go): the owned lexer, current and peek tokens and
accumulated error strings.  The two dispatch maps are fixed at
construction and are modelled by `hasPrefixFn`/`hasInfixFn` plus the
dispatchers below. -/
structure Parser where
  l : Lexer
  curToken : Token
  peekToken : Token
  errors : List String
  deriving Repr

/-- nextToken: shift peek into current, pull a fresh token from the lexer. -/
def Parser.nextToken (p : Parser) : Parser :=
  let r := p.l.nextTok
  { l := r.2, curToken := p.peekToken, peekToken := r.1, errors := p.errors }

/-- Zero value of the Go Token struct (TokenType zero value is ILLEGAL). -/
def zeroToken : Token := { type := ILLEGAL, literal := [], line := 0, column := 0 }

/-- NewParser: prime curToken and peekToken with two advances. -/
def NewParser (l : Lexer) : Parser :=
  (Parser.nextToken (Parser.nextToken { l := l, curToken := zeroToken, peekToken := zeroToken, errors := [] }))

/-- curTokenIs. -/
def Parser.curTokenIs (p : Parser) (t : TokenType) : Bool := decide (p.curToken.type = t)

/-- peekTokenIs. -/
def Parser.peekTokenIs (p : Parser) (t : TokenType) : Bool := decide (p.peekToken.type = t)

/-- peekError: the "expected next token" diagnostic. -/
def Parser.peekError (p : Parser) (t : TokenType) : Parser :=
  { p with errors := p.errors ++
      ["expected next token to be " ++ tokenTypeString t ++ ", got "
        ++ tokenTypeString p.peekToken.type ++ " instead"] }

/-- expectPeek: advance on match, else record the diagnostic. -/
def Parser.expectPeek (p : Parser) (t : TokenType) : Bool × Parser :=
  if p.peekTokenIs t then (true, p.nextToken) else (false, p.peekError t)

/-- noPrefixParseFnError. -/
def Parser.noPrefixParseFnError (p : Parser) (t : TokenType) : Parser :=
  { p with errors := p.errors ++ ["no prefix parse function for " ++ tokenTypeString t ++ " found"] }

/-- peekPrecedence (LOWEST when the kind has no precedence entry). -/
def Parser.peekPrecedence (p : Parser) : Nat := (precedences p.peekToken.type).getD precLowest

/-- curPrecedence. -/
def Parser.curPrecedence (p : Parser) : Nat := (precedences p.curToken.type).getD precLowest

/-- parseIdentifier (prefix handler; non-mutating). -/
def Parser.parseIdentifier (p : Parser) : Option Expr :=
  some (Expr.identifier ⟨p.curToken, p.curToken.literal⟩)

/-- parseVariable: strips the `$` sigil from the token literal. -/
def Parser.parseVariable (p : Parser) : Option Expr :=
  some (Expr.varE ⟨p.curToken, p.curToken.literal.drop 1⟩)

/-- parseIntegerLiteral: strconv.ParseInt with base 0; on failure records
the "could not parse %q as integer" diagnostic and yields no node. -/
def Parser.parseIntegerLiteral (p : Parser) : Option Expr × Parser :=
  match goParseInt p.curToken.literal with
  | some v => (some (Expr.integerLiteral p.curToken v), p)
  | none => (none, { p with errors := p.errors ++
      ["could not parse " ++ goQuote p.curToken.literal ++ " as integer"] })

/-- parseFloatLiteral (value kept as the raw literal, see goParseFloatOk). -/
def Parser.parseFloatLiteral (p : Parser) : Option Expr × Parser :=
  if goParseFloatOk p.curToken.literal then
    (some (Expr.floatLiteral p.curToken p.curToken.literal), p)
  else
    (none, { p with errors := p.errors ++
      ["could not parse " ++ goQuote p.curToken.literal ++ " as float"] })

/-- parseBooleanLiteral. -/
def Parser.parseBooleanLiteral (p : Parser) : Option Expr :=
  some (Expr.booleanLiteral p.curToken (p.curTokenIs TRUE))

/-- Identifier-run scan of parseInterpolatedString (`j` counter: letters,
and digits when not the first character). -/
def interpSpan : List Nat → Nat → Nat
  | [], _ => 0
  | c :: cs, j =>
    if isLetter c || (decide (0 < j) && isDigit c) then 1 + interpSpan cs (j + 1) else 0

/-- Per-chunk processing of parseInterpolatedString for the chunks after
the first `$` split. -/
def interpParts (tok : Token) : List (List Nat) → List Expr
  | [] => []
  | part :: rest =>
    let j := interpSpan part 0
    let nodes : List Expr :=
      if 0 < j then
        let varName := part.take j
        let vtok : Token := { type := VARIABLE, literal := 36 :: varName, line := tok.line, column := tok.column }
        let base := [Expr.varE ⟨vtok, varName⟩]
        if j < part.length then
          let remaining := part.drop j
          base ++ [Expr.stringLiteral { type := STRING, literal := remaining, line := tok.line, column := tok.column } remaining]
        else base
      else
        [Expr.stringLiteral { type := STRING, literal := 36 :: part, line := tok.line, column := tok.column } (36 :: part)]
    nodes ++ interpParts tok rest

/-- parseInterpolatedString: split the literal on `$`, the leading chunk
is a literal fragment when nonempty, later chunks start with an extracted
variable name when they have one. -/
def Parser.parseInterpolatedString (p : Parser) : Expr :=
  let literal := p.curToken.literal
  let parts := splitOnByte 36 literal
  let head : List Expr :=
    match parts with
    | p0 :: _ =>
      if p0 ≠ [] then
        [Expr.stringLiteral { type := STRING, literal := p0, line := p.curToken.line, column := p.curToken.column } p0]
      else []
    | [] => []
  Expr.interpolatedString p.curToken (head ++ interpParts p.curToken parts.tail)

/-- parseStringLiteral: a literal containing `$` is reinterpreted as an
interpolated string. -/
def Parser.parseStringLiteral (p : Parser) : Option Expr :=
  if p.curToken.literal.contains 36 then some (p.parseInterpolatedString)
  else some (Expr.stringLiteral p.curToken p.curToken.literal)

/-- parsePostfixExpression (infix handler; non-mutating). -/
def Parser.parsePostfixExpression (left : Option Expr) (p : Parser) : Option Expr × Parser :=
  (some (Expr.postfixExpression p.curToken left p.curToken.literal), p)

/-- parseNamespaceDeclaration. -/
def Parser.parseNamespaceDeclaration (p : Parser) : Option Stmt × Parser :=
  let tok := p.curToken
  match p.expectPeek IDENT with
  | (false, p) => (none, p)
  | (true, p) =>
    let name : IdentNode := ⟨p.curToken, p.curToken.literal⟩
    let p := if p.peekTokenIs SEMICOLON then p.nextToken else p
    (some (Stmt.namespaceDeclaration tok name), p)

/-- parseUseStatement: a single IDENT path segment, optional `as` alias. -/
def Parser.parseUseStatement (p : Parser) : Option Stmt × Parser :=
  let tok := p.curToken
  match p.expectPeek IDENT with
  | (false, p) => (none, p)
  | (true, p) =>
    let ns : IdentNode := ⟨p.curToken, p.curToken.literal⟩
    if p.peekTokenIs AS then
      let p := p.nextToken
      match p.expectPeek IDENT with
      | (false, p) => (none, p)
      | (true, p) =>
        let al : IdentNode := ⟨p.curToken, p.curToken.literal⟩
        let p := if p.peekTokenIs SEMICOLON then p.nextToken else p
        (some (Stmt.useStatement tok ns (some al)), p)
    else
      let p := if p.peekTokenIs SEMICOLON then p.nextToken else p
      (some (Stmt.useStatement tok ns none), p)

mutual

/-- Top-level loop of ParseProgram: skip PHP open/close markers, otherwise
parse a statement, append it (the Go `stmt != nil` check is always true,
because every parseStatement branch returns a typed pointer wrapped in
the Statement interface) and advance. -/
def Parser.parseProgramLoop : Nat → Parser → List Stmt → List Stmt × Parser
  | 0, p, acc => (acc, p)
  | fuel + 1, p, acc =>
    if p.curTokenIs EOF then (acc, p)
    else if p.curTokenIs PHP_OPEN then Parser.parseProgramLoop fuel p.nextToken acc
    else if p.curTokenIs PHP_CLOSE then Parser.parseProgramLoop fuel p.nextToken acc
    else
      let r := Parser.parseStatement fuel p
      Parser.parseProgramLoop fuel r.2.nextToken (acc ++ [r.1])

/-- parseStatement: dispatch on the current token kind.  A branch whose
parse function returns Go-nil becomes the corresponding typed-nil
statement. -/
def Parser.parseStatement : Nat → Parser → Stmt × Parser
  | 0, p => (Stmt.nilStmt NilKind.functionDeclaration, p)
  | fuel + 1, p =>
    match p.curToken.type with
    | FUNCTION =>
      match Parser.parseFunctionDeclaration fuel p with
      | (some s, p) => (s, p)
      | (none, p) => (Stmt.nilStmt .functionDeclaration, p)
    | CLASS =>
      match Parser.parseClassDeclaration fuel p with
      | (some s, p) => (s, p)
      | (none, p) => (Stmt.nilStmt .classDeclaration, p)
    | INTERFACE =>
      match Parser.parseInterfaceDeclaration fuel p with
      | (some s, p) => (s, p)
      | (none, p) => (Stmt.nilStmt .interfaceDeclaration, p)
    | TRAIT =>
      match Parser.parseTraitDeclaration fuel p with
      | (some s, p) => (s, p)
      | (none, p) => (Stmt.nilStmt .traitDeclaration, p)
    | CONST =>
      match Parser.parseConstantDeclaration fuel p with
      | (some c, p) => (Stmt.constantDeclaration c, p)
      | (none, p) => (Stmt.nilStmt .constantDeclaration, p)
    | NAMESPACE =>
      match p.parseNamespaceDeclaration with
      | (some s, p) => (s, p)
      | (none, p) => (Stmt.nilStmt .namespaceDeclaration, p)
    | USE =>
      match p.parseUseStatement with
      | (some s, p) => (s, p)
      | (none, p) => (Stmt.nilStmt .useStatement, p)
    | TRY =>
      match Parser.parseTryStatement fuel p with
      | (some s, p) => (s, p)
      | (none, p) => (Stmt.nilStmt .tryStatement, p)
    | THROW => Parser.parseThrowStatement fuel p
    | RETURN => Parser.parseReturnStatement fuel p
    | IF =>
      match Parser.parseIfStatement fuel p with
      | (some s, p) => (s, p)
      | (none, p) => (Stmt.nilStmt .ifStatement, p)
    | ECHO => Parser.parseEchoStatement fuel p
    | FOR =>
      match Parser.parseForStatement fuel p with
      | (some s, p) => (s, p)
      | (none, p) => (Stmt.nilStmt .forStatement, p)
    | WHILE =>
      match Parser.parseWhileStatement fuel p with
      | (some s, p) => (s, p)
      | (none, p) => (Stmt.nilStmt .whileStatement, p)
    | FOREACH =>
      match Parser.parseForeachStatement fuel p with
      | (some s, p) => (s, p)
      | (none, p) => (Stmt.nilStmt .foreachStatement, p)
    | BREAK => Parser.parseBreakStatement fuel p
    | CONTINUE => Parser.parseContinueStatement fuel p
    | _ => Parser.parseExpressionStatement fuel p

/-- parseFunctionDeclaration. -/
def Parser.parseFunctionDeclaration : Nat → Parser → Option Stmt × Parser
  | 0, p => (none, p)
  | fuel + 1, p =>
    let tok := p.curToken
    match p.expectPeek IDENT with
    | (false, p) => (none, p)
    | (true, p) =>
      let name : IdentNode := ⟨p.curToken, p.curToken.literal⟩
      match p.expectPeek LPAREN with
      | (false, p) => (none, p)
      | (true, p) =>
        let rp := Parser.parseFunctionParameters fuel p
        match rp.2.expectPeek LBRACE with
        | (false, p) => (none, p)
        | (true, p) =>
          let rb := Parser.parseBlockStatement fuel p
          (some (Stmt.functionDeclaration tok name rp.1 rb.1.1 rb.1.2), rb.2)

/-- parseFunctionParameters (a failed closing-paren check returns Go-nil,
observationally the empty list). -/
def Parser.parseFunctionParameters : Nat → Parser → List VarNode × Parser
  | 0, p => ([], p)
  | fuel + 1, p =>
    if p.peekTokenIs RPAREN then ([], p.nextToken)
    else
      let p := p.nextToken
      let ids : List VarNode :=
        if p.curToken.type = VARIABLE then [⟨p.curToken, p.curToken.literal.drop 1⟩] else []
      let r := Parser.parseParamsLoop fuel p ids
      match r.2.expectPeek RPAREN with
      | (false, p) => ([], p)
      | (true, p) => (r.1, p)

/-- Comma loop of parseFunctionParameters. -/
def Parser.parseParamsLoop : Nat → Parser → List VarNode → List VarNode × Parser
  | 0, p, acc => (acc, p)
  | fuel + 1, p, acc =>
    if p.peekTokenIs COMMA then
      let p := p.nextToken.nextToken
      let acc :=
        if p.curToken.type = VARIABLE then acc ++ [⟨p.curToken, p.curToken.literal.drop 1⟩] else acc
      Parser.parseParamsLoop fuel p acc
    else (acc, p)

/-- parseBlockStatement. -/
def Parser.parseBlockStatement : Nat → Parser → (Token × List Stmt) × Parser
  | 0, p => ((p.curToken, []), p)
  | fuel + 1, p =>
    let tok := p.curToken
    let r := Parser.parseBlockLoop fuel p.nextToken []
    ((tok, r.1), r.2)

/-- Statement loop of parseBlockStatement (statements are always appended,
as in ParseProgram). -/
def Parser.parseBlockLoop : Nat → Parser → List Stmt → List Stmt × Parser
  | 0, p, acc => (acc, p)
  | fuel + 1, p, acc =>
    if p.curTokenIs RBRACE || p.curTokenIs EOF then (acc, p)
    else
      let r := Parser.parseStatement fuel p
      Parser.parseBlockLoop fuel r.2.nextToken (acc ++ [r.1])

/-- parseReturnStatement. -/
def Parser.parseReturnStatement : Nat → Parser → Stmt × Parser
  | 0, p => (Stmt.returnStatement p.curToken none, p)
  | fuel + 1, p =>
    let tok := p.curToken
    let p := p.nextToken
    let r : Option Expr × Parser :=
      if p.curTokenIs SEMICOLON then (none, p) else Parser.parseExpression fuel precLowest p
    let p := if r.2.peekTokenIs SEMICOLON then r.2.nextToken else r.2
    (Stmt.returnStatement tok r.1, p)

/-- parseIfStatement. -/
def Parser.parseIfStatement : Nat → Parser → Option Stmt × Parser
  | 0, p => (none, p)
  | fuel + 1, p =>
    let tok := p.curToken
    match p.expectPeek LPAREN with
    | (false, p) => (none, p)
    | (true, p) =>
      let p := p.nextToken
      let rc := Parser.parseExpression fuel precLowest p
      match rc.2.expectPeek RPAREN with
      | (false, p) => (none, p)
      | (true, p) =>
        match p.expectPeek LBRACE with
        | (false, p) => (none, p)
        | (true, p) =>
          let rb := Parser.parseBlockStatement fuel p
          if rb.2.peekTokenIs ELSE then
            let p := rb.2.nextToken
            match p.expectPeek LBRACE with
            | (false, p) => (none, p)
            | (true, p) =>
              let ra := Parser.parseBlockStatement fuel p
              (some (Stmt.ifStatement tok rc.1 rb.1.1 rb.1.2 (some ra.1)), ra.2)
          else
            (some (Stmt.ifStatement tok rc.1 rb.1.1 rb.1.2 none), rb.2)

/-- parseEchoStatement. -/
def Parser.parseEchoStatement : Nat → Parser → Stmt × Parser
  | 0, p => (Stmt.echoStatement p.curToken [], p)
  | fuel + 1, p =>
    let tok := p.curToken
    let p := p.nextToken
    let r := Parser.parseExpression fuel precLowest p
    let rl := Parser.parseEchoLoop fuel r.2 [r.1]
    let p := if rl.2.peekTokenIs SEMICOLON then rl.2.nextToken else rl.2
    (Stmt.echoStatement tok rl.1, p)

/-- Comma loop of parseEchoStatement. -/
def Parser.parseEchoLoop : Nat → Parser → List (Option Expr) → List (Option Expr) × Parser
  | 0, p, acc => (acc, p)
  | fuel + 1, p, acc =>
    if p.peekTokenIs COMMA then
      let p := p.nextToken.nextToken
      let r := Parser.parseExpression fuel precLowest p
      Parser.parseEchoLoop fuel r.2 (acc ++ [r.1])
    else (acc, p)

/-- parseExpressionStatement: a statement beginning `$var =` short-circuits
into the dedicated assignment parse. -/
def Parser.parseExpressionStatement : Nat → Parser → Stmt × Parser
  | 0, p => (Stmt.expressionStatement p.curToken none, p)
  | fuel + 1, p =>
    let tok := p.curToken
    let r : Option Expr × Parser :=
      if p.curToken.type = VARIABLE ∧ p.peekToken.type = ASSIGN then
        Parser.parseAssignmentExpressionFromVariable fuel p
      else
        Parser.parseExpression fuel precLowest p
    let p := if r.2.peekTokenIs SEMICOLON then r.2.nextToken else r.2
    (Stmt.expressionStatement tok r.1, p)

/-- parseAssignmentExpressionFromVariable. -/
def Parser.parseAssignmentExpressionFromVariable : Nat → Parser → Option Expr × Parser
  | 0, p => (none, p)
  | fuel + 1, p =>
    let v : VarNode := ⟨p.curToken, p.curToken.literal.drop 1⟩
    match p.expectPeek ASSIGN with
    | (false, p) => (none, p)
    | (true, p) =>
      let tok := p.curToken
      let p := p.nextToken
      let r := Parser.parseExpression fuel precLowest p
      (some (Expr.assignmentExpression tok v r.1), r.2)

/-- parseExpression: prefix dispatch, then the infix-climbing loop.  A
missing prefix handler records the diagnostic and yields nil. -/
def Parser.parseExpression : Nat → Nat → Parser → Option Expr × Parser
  | 0, _, p => (none, p)
  | fuel + 1, precedence, p =>
    if hasPrefixFn p.curToken.type then
      let r := Parser.applyPrefixFn fuel p.curToken.type p
      Parser.parseExpressionLoop fuel precedence r.1 r.2
    else
      (none, p.noPrefixParseFnError p.curToken.type)

/-- The infix-climbing loop of parseExpression: while the peek token is
not a SEMICOLON and has strictly higher precedence than the caller's
minimum, advance onto a registered infix handler and fold the left-hand
side; an unregistered peek token also ends the loop. -/
def Parser.parseExpressionLoop : Nat → Nat → Option Expr → Parser → Option Expr × Parser
  | 0, _, left, p => (left, p)
  | fuel + 1, precedence, left, p =>
    if ¬ p.peekTokenIs SEMICOLON ∧ precedence < p.peekPrecedence then
      if hasInfixFn p.peekToken.type then
        let p := p.nextToken
        let r := Parser.applyInfixFn fuel p.curToken.type left p
        Parser.parseExpressionLoop fuel precedence r.1 r.2
      else (left, p)
    else (left, p)

/-- Prefix dispatch table as registered in NewParser (guarded by
hasPrefixFn; the default is unreachable). -/
def Parser.applyPrefixFn : Nat → TokenType → Parser → Option Expr × Parser
  | 0, _, p => (none, p)
  | fuel + 1, t, p =>
    match t with
    | IDENT => (p.parseIdentifier, p)
    | VARIABLE => (p.parseVariable, p)
    | INT => p.parseIntegerLiteral
    | FLOAT => p.parseFloatLiteral
    | STRING => (p.parseStringLiteral, p)
    | TRUE => (p.parseBooleanLiteral, p)
    | FALSE => (p.parseBooleanLiteral, p)
    | NOT => Parser.parsePrefixExpression fuel p
    | MINUS => Parser.parsePrefixExpression fuel p
    | INCREMENT => Parser.parsePrefixExpression fuel p
    | DECREMENT => Parser.parsePrefixExpression fuel p
    | NEW => Parser.parseNewExpression fuel p
    | FUNCTION => Parser.parseAnonymousFunction fuel p
    | YIELD => Parser.parseYieldExpression fuel p
    | LPAREN => Parser.parseGroupedExpression fuel p
    | LBRACKET => Parser.parseArrayLiteral fuel p
    | _ => (none, p)

/-- Infix dispatch table as registered in NewParser (guarded by
hasInfixFn). -/
def Parser.applyInfixFn : Nat → TokenType → Option Expr → Parser → Option Expr × Parser
  | 0, _, left, p => (left, p)
  | fuel + 1, t, left, p =>
    match t with
    | PLUS | MINUS | MULTIPLY | DIVIDE | MODULO | CONCAT | EQ | NOT_EQ
    | .LT | .GT | LTE | GTE | SPACESHIP | AND | OR | QUESTION_QUESTION =>
      Parser.parseInfixExpression fuel left p
    | QUESTION => Parser.parseTernaryExpression fuel left p
    | QUESTION_QUESTION_ASSIGN => Parser.parseAssignmentExpression fuel left p
    | ASSIGN => Parser.parseAssignmentExpression fuel left p
    | QUESTION_ARROW => Parser.parseObjectAccessExpression fuel left p
    | OBJECT_ACCESS => Parser.parseObjectAccessExpression fuel left p
    | STATIC_ACCESS => Parser.parseStaticAccessExpression fuel left p
    | LPAREN => Parser.parseCallExpression fuel left p
    | LBRACKET => Parser.parseIndexExpression fuel left p
    | INCREMENT => p.parsePostfixExpression left
    | DECREMENT => p.parsePostfixExpression left
    | _ => (left, p)

/-- parsePrefixExpression: unary operator, operand at PREFIX precedence. -/
def Parser.parsePrefixExpression : Nat → Parser → Option Expr × Parser
  | 0, p => (none, p)
  | fuel + 1, p =>
    let tok := p.curToken
    let op := p.curToken.literal
    let p := p.nextToken
    let r := Parser.parseExpression fuel precPrefixUnary p
    (some (Expr.prefixExpression tok op r.1), r.2)

/-- parseInfixExpression: binary operator, right operand at the operator's
own precedence (left associativity). -/
def Parser.parseInfixExpression : Nat → Option Expr → Parser → Option Expr × Parser
  | 0, left, p => (left, p)
  | fuel + 1, left, p =>
    let tok := p.curToken
    let op := p.curToken.literal
    let precedence := p.curPrecedence
    let p := p.nextToken
    let r := Parser.parseExpression fuel precedence p
    (some (Expr.infixExpression tok left op r.1), r.2)

/-- parseAssignmentExpression (infix handler for `=` and `??=`): the left
side must be exactly a Variable node or the error is recorded and the
expression is discarded. -/
def Parser.parseAssignmentExpression : Nat → Option Expr → Parser → Option Expr × Parser
  | 0, _, p => (none, p)
  | fuel + 1, left, p =>
    match left with
    | some (Expr.varE v) =>
      let tok := p.curToken
      let p := p.nextToken
      let r := Parser.parseExpression fuel precLowest p
      (some (Expr.assignmentExpression tok v r.1), r.2)
    | _ =>
      (none, { p with errors := p.errors ++ ["left side of assignment must be a variable"] })

/-- parseGroupedExpression. -/
def Parser.parseGroupedExpression : Nat → Parser → Option Expr × Parser
  | 0, p => (none, p)
  | fuel + 1, p =>
    let p := p.nextToken
    let r := Parser.parseExpression fuel precLowest p
    match r.2.expectPeek RPAREN with
    | (false, p) => (none, p)
    | (true, p) => (r.1, p)

/-- parseCallExpression. -/
def Parser.parseCallExpression : Nat → Option Expr → Parser → Option Expr × Parser
  | 0, left, p => (left, p)
  | fuel + 1, fn, p =>
    let tok := p.curToken
    let r := Parser.parseExpressionList fuel RPAREN p
    (some (Expr.callExpression tok fn r.1), r.2)

/-- parseExpressionList (call arguments etc.; Go-nil on a failed closing
check, observationally the empty list). -/
def Parser.parseExpressionList : Nat → TokenType → Parser → List (Option Expr) × Parser
  | 0, _, p => ([], p)
  | fuel + 1, endT, p =>
    if p.peekTokenIs endT then ([], p.nextToken)
    else
      let p := p.nextToken
      let r := Parser.parseExpression fuel precLowest p
      let rl := Parser.parseExprListLoop fuel r.2 [r.1]
      match rl.2.expectPeek endT with
      | (false, p) => ([], p)
      | (true, p) => (rl.1, p)

/-- Comma loop of parseExpressionList. -/
def Parser.parseExprListLoop : Nat → Parser → List (Option Expr) → List (Option Expr) × Parser
  | 0, p, acc => (acc, p)
  | fuel + 1, p, acc =>
    if p.peekTokenIs COMMA then
      let p := p.nextToken.nextToken
      let r := Parser.parseExpression fuel precLowest p
      Parser.parseExprListLoop fuel r.2 (acc ++ [r.1])
    else (acc, p)

/-- parseArrayLiteral: a `=>` after the first element selects the
associative form. -/
def Parser.parseArrayLiteral : Nat → Parser → Option Expr × Parser
  | 0, p => (none, p)
  | fuel + 1, p =>
    let tok := p.curToken
    if p.peekTokenIs RBRACKET then
      (some (Expr.arrayLiteral tok []), p.nextToken)
    else
      let p := p.nextToken
      let rf := Parser.parseExpression fuel precLowest p
      if rf.2.peekTokenIs DOUBLE_ARROW then
        let p := rf.2.nextToken.nextToken
        let rv := Parser.parseExpression fuel precLowest p
        let rl := Parser.parseAssocLoop fuel rv.2 [(rf.1, rv.1)]
        match rl.1 with
        | none => (none, rl.2)
        | some pairs =>
          match rl.2.expectPeek RBRACKET with
          | (false, p) => (none, p)
          | (true, p) => (some (Expr.associativeArrayLiteral tok pairs), p)
      else
        let rl := Parser.parseElemsLoop fuel rf.2 [rf.1]
        match rl.2.expectPeek RBRACKET with
        | (false, p) => (none, p)
        | (true, p) => (some (Expr.arrayLiteral tok rl.1), p)

/-- Pair loop of the associative branch of parseArrayLiteral; a failed
`=>` check makes the whole literal nil. -/
def Parser.parseAssocLoop : Nat → Parser → List (Option Expr × Option Expr) →
    Option (List (Option Expr × Option Expr)) × Parser
  | 0, p, acc => (some acc, p)
  | fuel + 1, p, acc =>
    if p.peekTokenIs COMMA then
      let p := p.nextToken.nextToken
      let rk := Parser.parseExpression fuel precLowest p
      match rk.2.expectPeek DOUBLE_ARROW with
      | (false, p) => (none, p)
      | (true, p) =>
        let p := p.nextToken
        let rv := Parser.parseExpression fuel precLowest p
        Parser.parseAssocLoop fuel rv.2 (acc ++ [(rk.1, rv.1)])
    else (some acc, p)

/-- Element loop of the plain branch of parseArrayLiteral. -/
def Parser.parseElemsLoop : Nat → Parser → List (Option Expr) → List (Option Expr) × Parser
  | 0, p, acc => (acc, p)
  | fuel + 1, p, acc =>
    if p.peekTokenIs COMMA then
      let p := p.nextToken.nextToken
      let r := Parser.parseExpression fuel precLowest p
      Parser.parseElemsLoop fuel r.2 (acc ++ [r.1])
    else (acc, p)

/-- parseForStatement, with the `$var = ...` / `$var++` special shapes in
the init and update slots. -/
def Parser.parseForStatement : Nat → Parser → Option Stmt × Parser
  | 0, p => (none, p)
  | fuel + 1, p =>
    let tok := p.curToken
    match p.expectPeek LPAREN with
    | (false, p) => (none, p)
    | (true, p) =>
      let p := p.nextToken
      let ri : Option Expr × Parser :=
        if p.curToken.type = VARIABLE ∧ p.peekToken.type = ASSIGN then
          Parser.parseAssignmentExpressionFromVariable fuel p
        else Parser.parseExpression fuel precLowest p
      match ri.2.expectPeek SEMICOLON with
      | (false, p) => (none, p)
      | (true, p) =>
        let p := p.nextToken
        let rc := Parser.parseExpression fuel precLowest p
        match rc.2.expectPeek SEMICOLON with
        | (false, p) => (none, p)
        | (true, p) =>
          let p := p.nextToken
          let ru : Option Expr × Parser :=
            if p.curToken.type = VARIABLE ∧ p.peekToken.type = ASSIGN then
              Parser.parseAssignmentExpressionFromVariable fuel p
            else if p.curToken.type = VARIABLE ∧ p.peekToken.type = INCREMENT then
              let v : VarNode := ⟨p.curToken, p.curToken.literal.drop 1⟩
              let p := p.nextToken
              (some (Expr.postfixExpression p.curToken (some (Expr.varE v)) p.curToken.literal), p)
            else Parser.parseExpression fuel precLowest p
          match ru.2.expectPeek RPAREN with
          | (false, p) => (none, p)
          | (true, p) =>
            match p.expectPeek LBRACE with
            | (false, p) => (none, p)
            | (true, p) =>
              let rb := Parser.parseBlockStatement fuel p
              (some (Stmt.forStatement tok ri.1 rc.1 ru.1 rb.1.1 rb.1.2), rb.2)

/-- parseIndexExpression. -/
def Parser.parseIndexExpression : Nat → Option Expr → Parser → Option Expr × Parser
  | 0, left, p => (left, p)
  | fuel + 1, left, p =>
    let tok := p.curToken
    let p := p.nextToken
    let r := Parser.parseExpression fuel precLowest p
    match r.2.expectPeek RBRACKET with
    | (false, p) => (none, p)
    | (true, p) => (some (Expr.indexExpression tok left r.1), p)

/-- parseWhileStatement. -/
def Parser.parseWhileStatement : Nat → Parser → Option Stmt × Parser
  | 0, p => (none, p)
  | fuel + 1, p =>
    let tok := p.curToken
    match p.expectPeek LPAREN with
    | (false, p) => (none, p)
    | (true, p) =>
      let p := p.nextToken
      let rc := Parser.parseExpression fuel precLowest p
      match rc.2.expectPeek RPAREN with
      | (false, p) => (none, p)
      | (true, p) =>
        match p.expectPeek LBRACE with
        | (false, p) => (none, p)
        | (true, p) =>
          let rb := Parser.parseBlockStatement fuel p
          (some (Stmt.whileStatement tok rc.1 rb.1.1 rb.1.2), rb.2)

/-- parseForeachStatement: key and value must be plain variables. -/
def Parser.parseForeachStatement : Nat → Parser → Option Stmt × Parser
  | 0, p => (none, p)
  | fuel + 1, p =>
    let tok := p.curToken
    match p.expectPeek LPAREN with
    | (false, p) => (none, p)
    | (true, p) =>
      let p := p.nextToken
      let ra := Parser.parseExpression fuel precLowest p
      match ra.2.expectPeek AS with
      | (false, p) => (none, p)
      | (true, p) =>
        let p := p.nextToken
        let kv : Option (Option VarNode × Parser) :=
          if p.peekTokenIs DOUBLE_ARROW then
            if p.curToken.type ≠ VARIABLE then none
            else some (some ⟨p.curToken, p.curToken.literal.drop 1⟩, p.nextToken.nextToken)
          else some (none, p)
        match kv with
        | none => (none, { p with errors := p.errors ++ ["foreach key must be a variable"] })
        | some (key, p) =>
          if p.curToken.type ≠ VARIABLE then
            (none, { p with errors := p.errors ++ ["foreach value must be a variable"] })
          else
            let v : VarNode := ⟨p.curToken, p.curToken.literal.drop 1⟩
            match p.expectPeek RPAREN with
            | (false, p) => (none, p)
            | (true, p) =>
              match p.expectPeek LBRACE with
              | (false, p) => (none, p)
              | (true, p) =>
                let rb := Parser.parseBlockStatement fuel p
                (some (Stmt.foreachStatement tok ra.1 key v rb.1.1 rb.1.2), rb.2)

/-- parseBreakStatement: a level is consumed only when the peek token is
an INT, and it is then parsed as a full expression at LOWEST precedence. -/
def Parser.parseBreakStatement : Nat → Parser → Stmt × Parser
  | 0, p => (Stmt.breakStatement p.curToken none, p)
  | fuel + 1, p =>
    let tok := p.curToken
    let r : Option Expr × Parser :=
      if p.peekTokenIs INT then
        Parser.parseExpression fuel precLowest p.nextToken
      else (none, p)
    let p := if r.2.peekTokenIs SEMICOLON then r.2.nextToken else r.2
    (Stmt.breakStatement tok r.1, p)

/-- parseContinueStatement (same shape as parseBreakStatement). -/
def Parser.parseContinueStatement : Nat → Parser → Stmt × Parser
  | 0, p => (Stmt.continueStatement p.curToken none, p)
  | fuel + 1, p =>
    let tok := p.curToken
    let r : Option Expr × Parser :=
      if p.peekTokenIs INT then
        Parser.parseExpression fuel precLowest p.nextToken
      else (none, p)
    let p := if r.2.peekTokenIs SEMICOLON then r.2.nextToken else r.2
    (Stmt.continueStatement tok r.1, p)

/-- parseClassDeclaration: name, optional extends, optional implements
list, brace body of trait uses / constants / methods / properties with
visibility and static modifiers. -/
def Parser.parseClassDeclaration : Nat → Parser → Option Stmt × Parser
  | 0, p => (none, p)
  | fuel + 1, p =>
    let tok := p.curToken
    match p.expectPeek IDENT with
    | (false, p) => (none, p)
    | (true, p) =>
      let name : IdentNode := ⟨p.curToken, p.curToken.literal⟩
      let rs : Option (Option IdentNode × Parser) :=
        if p.peekTokenIs EXTENDS then
          let p := p.nextToken
          match p.expectPeek IDENT with
          | (false, p') => some (none, p') -- marks failure below via flag
          | (true, p') => some (some ⟨p'.curToken, p'.curToken.literal⟩, p')
        else some (none, p)
      -- Go returns nil from the whole declaration when the IDENT after
      -- `extends` is missing; reproduce that via an explicit check:
      match rs with
      | none => (none, p)
      | some (superC, p1) =>
        if p.peekTokenIs EXTENDS ∧ superC = none then (none, p1)
        else
          let p := p1
          let ri : List IdentNode × Parser :=
            if p.peekTokenIs IMPLEMENTS then
              let p := p.nextToken
              let p := p.nextToken
              Parser.parseImplementsLoop fuel p []
            else ([], p)
          match ri.2.expectPeek LBRACE with
          | (false, p) => (none, p)
          | (true, p) =>
            let p := p.nextToken
            let rb := Parser.parseClassBodyLoop fuel p ([], [], [], [])
            match rb.1 with
            | (traitUses, properties, methods, constants) =>
              (some (Stmt.classDeclaration tok name superC ri.1 traitUses properties methods constants), rb.2)

/-- Interface-list loop of parseClassDeclaration. -/
def Parser.parseImplementsLoop : Nat → Parser → List IdentNode → List IdentNode × Parser
  | 0, p, acc => (acc, p)
  | fuel + 1, p, acc =>
    if p.curTokenIs LBRACE || p.curTokenIs EOF then (acc, p)
    else
      let acc := if p.curTokenIs IDENT then acc ++ [⟨p.curToken, p.curToken.literal⟩] else acc
      let p := if p.peekTokenIs COMMA then p.nextToken else p
      if p.peekTokenIs LBRACE then (acc, p)
      else Parser.parseImplementsLoop fuel p.nextToken acc

/-- Member loop of the class body: trait uses, then visibility/static
modifiers followed by a constant, method or property; a parsed class
constant has its visibility overwritten with the modifier seen here. -/
def Parser.parseClassBodyLoop : Nat → Parser →
    List TraitUseNode × List PropNode × List MethodNode × List ConstNode →
    (List TraitUseNode × List PropNode × List MethodNode × List ConstNode) × Parser
  | 0, p, acc => (acc, p)
  | fuel + 1, p, acc =>
    if p.curTokenIs RBRACE || p.curTokenIs EOF then (acc, p)
    else
      match acc with
      | (tus, props, meths, consts) =>
        if p.curTokenIs USE then
          let r := Parser.parseTraitUse fuel p
          Parser.parseClassBodyLoop fuel r.2.nextToken (tus ++ [r.1], props, meths, consts)
        else
          let vp : List Nat × Parser :=
            if p.curTokenIs PUBLIC || p.curTokenIs PRIVATE || p.curTokenIs PROTECTED then
              (p.curToken.literal, p.nextToken)
            else (bytesOf "public", p)
          let visibility := vp.1
          let sp : Bool × Parser :=
            if vp.2.curTokenIs STATIC then (true, vp.2.nextToken) else (false, vp.2)
          let static := sp.1
          let p := sp.2
          if p.curTokenIs CONST then
            let r := Parser.parseConstantDeclaration fuel p
            match r.1 with
            | some c =>
              let c' := match c with
                | ConstNode.mk t _ n v => ConstNode.mk t visibility n v
              Parser.parseClassBodyLoop fuel r.2.nextToken (tus, props, meths, consts ++ [c'])
            | none => Parser.parseClassBodyLoop fuel r.2.nextToken (tus, props, meths, consts)
          else if p.curTokenIs FUNCTION then
            let r := Parser.parseMethodDeclaration fuel visibility static p
            match r.1 with
            | some m => Parser.parseClassBodyLoop fuel r.2.nextToken (tus, props, meths ++ [m], consts)
            | none => Parser.parseClassBodyLoop fuel r.2.nextToken (tus, props, meths, consts)
          else if p.curTokenIs VARIABLE then
            let r := Parser.parsePropertyDeclaration fuel visibility static p
            match r.1 with
            | some pr => Parser.parseClassBodyLoop fuel r.2.nextToken (tus, props ++ [pr], meths, consts)
            | none => Parser.parseClassBodyLoop fuel r.2.nextToken (tus, props, meths, consts)
          else
            Parser.parseClassBodyLoop fuel p.nextToken (tus, props, meths, consts)

/-- parsePropertyDeclaration. -/
def Parser.parsePropertyDeclaration : Nat → List Nat → Bool → Parser → Option PropNode × Parser
  | 0, _, _, p => (none, p)
  | fuel + 1, visibility, static, p =>
    if ¬ p.curTokenIs VARIABLE then (none, p)
    else
      let tok := p.curToken
      let name : VarNode := ⟨p.curToken, p.curToken.literal.drop 1⟩
      let rv : Option Expr × Parser :=
        if p.peekTokenIs ASSIGN then
          let p := p.nextToken.nextToken
          Parser.parseExpression fuel precLowest p
        else (none, p)
      let p := if rv.2.peekTokenIs SEMICOLON then rv.2.nextToken else rv.2
      (some (PropNode.mk tok visibility static name rv.1), p)

/-- parseMethodDeclaration. -/
def Parser.parseMethodDeclaration : Nat → List Nat → Bool → Parser → Option MethodNode × Parser
  | 0, _, _, p => (none, p)
  | fuel + 1, visibility, static, p =>
    if ¬ p.curTokenIs FUNCTION then (none, p)
    else
      let tok := p.curToken
      match p.expectPeek IDENT with
      | (false, p) => (none, p)
      | (true, p) =>
        let name : IdentNode := ⟨p.curToken, p.curToken.literal⟩
        match p.expectPeek LPAREN with
        | (false, p) => (none, p)
        | (true, p) =>
          let rp := Parser.parseFunctionParameters fuel p
          match rp.2.expectPeek LBRACE with
          | (false, p) => (none, p)
          | (true, p) =>
            let rb := Parser.parseBlockStatement fuel p
            (some (MethodNode.mk tok visibility static name rp.1 rb.1.1 rb.1.2), rb.2)

/-- parseNewExpression: class name must be a plain identifier. -/
def Parser.parseNewExpression : Nat → Parser → Option Expr × Parser
  | 0, p => (none, p)
  | fuel + 1, p =>
    let tok := p.curToken
    match p.expectPeek IDENT with
    | (false, p) => (none, p)
    | (true, p) =>
      let className : IdentNode := ⟨p.curToken, p.curToken.literal⟩
      let ra : List (Option Expr) × Parser :=
        if p.peekTokenIs LPAREN then
          Parser.parseExpressionList fuel RPAREN p.nextToken
        else ([], p)
      (some (Expr.newExpression tok className ra.1), ra.2)

/-- parseObjectAccessExpression (for `->` and `?->`). -/
def Parser.parseObjectAccessExpression : Nat → Option Expr → Parser → Option Expr × Parser
  | 0, left, p => (left, p)
  | fuel + 1, left, p =>
    let tok := p.curToken
    let p := p.nextToken
    let r := Parser.parseExpression fuel precCall p
    (some (Expr.objectAccessExpression tok left r.1), r.2)

/-- parseStaticAccessExpression (for `::`). -/
def Parser.parseStaticAccessExpression : Nat → Option Expr → Parser → Option Expr × Parser
  | 0, left, p => (left, p)
  | fuel + 1, left, p =>
    let tok := p.curToken
    let p := p.nextToken
    let r := Parser.parseExpression fuel precCall p
    (some (Expr.staticAccessExpression tok left r.1), r.2)

/-- parseTryStatement. -/
def Parser.parseTryStatement : Nat → Parser → Option Stmt × Parser
  | 0, p => (none, p)
  | fuel + 1, p =>
    let tok := p.curToken
    match p.expectPeek LBRACE with
    | (false, p) => (none, p)
    | (true, p) =>
      let rb := Parser.parseBlockStatement fuel p
      let rc := Parser.parseCatchesLoop fuel rb.2 []
      let rf : Option (Token × List Stmt) × Parser :=
        if rc.2.peekTokenIs FINALLY then
          let p := rc.2.nextToken
          match p.expectPeek LBRACE with
          | (false, p) => (none, p)
          | (true, p) =>
            let r := Parser.parseBlockStatement fuel p
            (some r.1, r.2)
        else (none, rc.2)
      (some (Stmt.tryStatement tok rb.1.1 rb.1.2 rc.1 rf.1), rf.2)

/-- Catch-clause loop of parseTryStatement. -/
def Parser.parseCatchesLoop : Nat → Parser → List CatchNode → List CatchNode × Parser
  | 0, p, acc => (acc, p)
  | fuel + 1, p, acc =>
    if p.peekTokenIs CATCH then
      let p := p.nextToken
      let r := Parser.parseCatchClause fuel p
      match r.1 with
      | some c => Parser.parseCatchesLoop fuel r.2 (acc ++ [c])
      | none => Parser.parseCatchesLoop fuel r.2 acc
    else (acc, p)

/-- parseCatchClause. -/
def Parser.parseCatchClause : Nat → Parser → Option CatchNode × Parser
  | 0, p => (none, p)
  | fuel + 1, p =>
    let tok := p.curToken
    match p.expectPeek LPAREN with
    | (false, p) => (none, p)
    | (true, p) =>
      let p := p.nextToken
      let te : Option IdentNode × Parser :=
        if p.curToken.type = IDENT then
          (some ⟨p.curToken, p.curToken.literal⟩, p.nextToken)
        else (none, p)
      let p := te.2
      if p.curToken.type ≠ VARIABLE then
        (none, { p with errors := p.errors ++ ["expected variable in catch clause"] })
      else
        let v : VarNode := ⟨p.curToken, p.curToken.literal.drop 1⟩
        match p.expectPeek RPAREN with
        | (false, p) => (none, p)
        | (true, p) =>
          match p.expectPeek LBRACE with
          | (false, p) => (none, p)
          | (true, p) =>
            let rb := Parser.parseBlockStatement fuel p
            (some (CatchNode.mk tok te.1 v rb.1.1 rb.1.2), rb.2)

/-- parseThrowStatement. -/
def Parser.parseThrowStatement : Nat → Parser → Stmt × Parser
  | 0, p => (Stmt.throwStatement p.curToken none, p)
  | fuel + 1, p =>
    let tok := p.curToken
    let p := p.nextToken
    let r := Parser.parseExpression fuel precLowest p
    let p := if r.2.peekTokenIs SEMICOLON then r.2.nextToken else r.2
    (Stmt.throwStatement tok r.1, p)

/-- parseAnonymousFunction, with optional `use (...)` capture clause. -/
def Parser.parseAnonymousFunction : Nat → Parser → Option Expr × Parser
  | 0, p => (none, p)
  | fuel + 1, p =>
    let tok := p.curToken
    match p.expectPeek LPAREN with
    | (false, p) => (none, p)
    | (true, p) =>
      let rp := Parser.parseFunctionParameters fuel p
      let ru : Option (List VarNode × Parser) :=
        if rp.2.peekTokenIs USE then
          let p := rp.2.nextToken
          match p.expectPeek LPAREN with
          | (false, p') => some ([], p') -- failure flag handled below
          | (true, p') =>
            let r := Parser.parseUseClauseLoop fuel p'.nextToken []
            some r
        else some ([], rp.2)
      match ru with
      | none => (none, rp.2)
      | some (useC, p1) =>
        -- Go returns nil from the whole literal when the LPAREN after
        -- `use` is missing:
        if rp.2.peekTokenIs USE ∧ ¬ (rp.2.nextToken.peekTokenIs LPAREN) then (none, p1)
        else
          match p1.expectPeek LBRACE with
          | (false, p) => (none, p)
          | (true, p) =>
            let rb := Parser.parseBlockStatement fuel p
            (some (Expr.anonymousFunction tok rp.1 useC rb.1.1 rb.1.2), rb.2)

/-- Capture-variable loop of the `use (...)` clause. -/
def Parser.parseUseClauseLoop : Nat → Parser → List VarNode → List VarNode × Parser
  | 0, p, acc => (acc, p)
  | fuel + 1, p, acc =>
    if p.curTokenIs RPAREN || p.curTokenIs EOF then (acc, p)
    else
      let acc :=
        if p.curToken.type = VARIABLE then acc ++ [⟨p.curToken, p.curToken.literal.drop 1⟩] else acc
      let p := if p.peekTokenIs COMMA then p.nextToken else p
      Parser.parseUseClauseLoop fuel p.nextToken acc

/-- parseYieldExpression. -/
def Parser.parseYieldExpression : Nat → Parser → Option Expr × Parser
  | 0, p => (none, p)
  | fuel + 1, p =>
    let tok := p.curToken
    if ¬ p.peekTokenIs SEMICOLON ∧ ¬ p.peekTokenIs RBRACE ∧ ¬ p.peekTokenIs EOF then
      let p := p.nextToken
      let rv := Parser.parseExpression fuel precLowest p
      if rv.2.peekTokenIs DOUBLE_ARROW then
        let p := rv.2.nextToken.nextToken
        let rv2 := Parser.parseExpression fuel precLowest p
        (some (Expr.yieldExpression tok rv.1 rv2.1), rv2.2)
      else
        (some (Expr.yieldExpression tok none rv.1), rv.2)
    else
      (some (Expr.yieldExpression tok none none), p)

/-- parseInterfaceDeclaration. -/
def Parser.parseInterfaceDeclaration : Nat → Parser → Option Stmt × Parser
  | 0, p => (none, p)
  | fuel + 1, p =>
    let tok := p.curToken
    match p.expectPeek IDENT with
    | (false, p) => (none, p)
    | (true, p) =>
      let name : IdentNode := ⟨p.curToken, p.curToken.literal⟩
      match p.expectPeek LBRACE with
      | (false, p) => (none, p)
      | (true, p) =>
        let r := Parser.parseInterfaceBodyLoop fuel p.nextToken []
        (some (Stmt.interfaceDeclaration tok name r.1), r.2)

/-- Method loop of parseInterfaceDeclaration. -/
def Parser.parseInterfaceBodyLoop : Nat → Parser → List InterfaceMethodNode →
    List InterfaceMethodNode × Parser
  | 0, p, acc => (acc, p)
  | fuel + 1, p, acc =>
    if p.curTokenIs RBRACE || p.curTokenIs EOF then (acc, p)
    else
      let r := Parser.parseInterfaceMethod fuel p
      let acc := match r.1 with
        | some m => acc ++ [m]
        | none => acc
      Parser.parseInterfaceBodyLoop fuel r.2.nextToken acc

/-- parseInterfaceMethod (signature only, no body). -/
def Parser.parseInterfaceMethod : Nat → Parser → Option InterfaceMethodNode × Parser
  | 0, p => (none, p)
  | fuel + 1, p =>
    let tok := p.curToken
    let vp : List Nat × Parser :=
      if p.curTokenIs PUBLIC || p.curTokenIs PRIVATE || p.curTokenIs PROTECTED then
        (p.curToken.literal, p.nextToken)
      else (bytesOf "public", p)
    let p := vp.2
    if ¬ p.curTokenIs FUNCTION then (none, p)
    else
      let p := p.nextToken
      if ¬ p.curTokenIs IDENT then (none, p)
      else
        let name : IdentNode := ⟨p.curToken, p.curToken.literal⟩
        match p.expectPeek LPAREN with
        | (false, p) => (none, p)
        | (true, p) =>
          let rp := Parser.parseFunctionParameters fuel p
          let p := if rp.2.peekTokenIs SEMICOLON then rp.2.nextToken else rp.2
          (some ⟨tok, vp.1, name, rp.1⟩, p)

/-- parseTraitDeclaration. -/
def Parser.parseTraitDeclaration : Nat → Parser → Option Stmt × Parser
  | 0, p => (none, p)
  | fuel + 1, p =>
    let tok := p.curToken
    match p.expectPeek IDENT with
    | (false, p) => (none, p)
    | (true, p) =>
      let name : IdentNode := ⟨p.curToken, p.curToken.literal⟩
      match p.expectPeek LBRACE with
      | (false, p) => (none, p)
      | (true, p) =>
        let r := Parser.parseTraitBodyLoop fuel p.nextToken ([], [])
        match r.1 with
        | (props, meths) => (some (Stmt.traitDeclaration tok name props meths), r.2)

/-- Member loop of parseTraitDeclaration (static may follow a visibility
modifier or stand alone). -/
def Parser.parseTraitBodyLoop : Nat → Parser → List PropNode × List MethodNode →
    (List PropNode × List MethodNode) × Parser
  | 0, p, acc => (acc, p)
  | fuel + 1, p, acc =>
    if p.curTokenIs RBRACE || p.curTokenIs EOF then (acc, p)
    else
      match acc with
      | (props, meths) =>
        let vsp : List Nat × Bool × Parser :=
          if p.curTokenIs PUBLIC || p.curTokenIs PRIVATE || p.curTokenIs PROTECTED then
            let vis := p.curToken.literal
            let p := p.nextToken
            if p.curTokenIs STATIC then (vis, true, p.nextToken) else (vis, false, p)
          else if p.curTokenIs STATIC then (bytesOf "public", true, p.nextToken)
          else (bytesOf "public", false, p)
        match vsp with
        | (visibility, static, p) =>
          if p.curTokenIs VARIABLE then
            let r := Parser.parsePropertyDeclaration fuel visibility static p
            let acc' := match r.1 with
              | some pr => (props ++ [pr], meths)
              | none => (props, meths)
            Parser.parseTraitBodyLoop fuel r.2.nextToken acc'
          else if p.curTokenIs FUNCTION then
            let r := Parser.parseMethodDeclaration fuel visibility static p
            let acc' := match r.1 with
              | some m => (props, meths ++ [m])
              | none => (props, meths)
            Parser.parseTraitBodyLoop fuel r.2.nextToken acc'
          else
            Parser.parseTraitBodyLoop fuel p.nextToken (props, meths)

/-- parseConstantDeclaration (used at statement level and for class
constants; an optional leading visibility modifier must be followed by
`const`). -/
def Parser.parseConstantDeclaration : Nat → Parser → Option ConstNode × Parser
  | 0, p => (none, p)
  | fuel + 1, p =>
    let tok := p.curToken
    let vr : Option (List Nat × Parser) :=
      if p.curTokenIs PUBLIC || p.curTokenIs PRIVATE || p.curTokenIs PROTECTED then
        let vis := p.curToken.literal
        match p.expectPeek CONST with
        | (false, p') => some ([], p') -- failure: empty marker, checked below
        | (true, p') => some (vis, p')
      else some (bytesOf "public", p)
    match vr with
    | none => (none, p)
    | some (visibility, p1) =>
      if visibility = [] then (none, p1)
      else
        let p := p1
        match p.expectPeek IDENT with
        | (false, p) => (none, p)
        | (true, p) =>
          let name : IdentNode := ⟨p.curToken, p.curToken.literal⟩
          match p.expectPeek ASSIGN with
          | (false, p) => (none, p)
          | (true, p) =>
            let p := p.nextToken
            let rv := Parser.parseExpression fuel precLowest p
            let p := if rv.2.peekTokenIs SEMICOLON then rv.2.nextToken else rv.2
            (some (ConstNode.mk tok visibility name rv.1), p)

/-- parseTraitUse (never nil). -/
def Parser.parseTraitUse : Nat → Parser → TraitUseNode × Parser
  | 0, p => (⟨p.curToken, []⟩, p)
  | fuel + 1, p =>
    let tok := p.curToken
    let r := Parser.parseTraitUseLoop fuel p.nextToken []
    (⟨tok, r.1⟩, r.2)

/-- Name loop of parseTraitUse. -/
def Parser.parseTraitUseLoop : Nat → Parser → List IdentNode → List IdentNode × Parser
  | 0, p, acc => (acc, p)
  | fuel + 1, p, acc =>
    if p.curTokenIs SEMICOLON || p.curTokenIs EOF then (acc, p)
    else
      let acc := if p.curTokenIs IDENT then acc ++ [⟨p.curToken, p.curToken.literal⟩] else acc
      let p := if p.peekTokenIs COMMA then p.nextToken else p
      Parser.parseTraitUseLoop fuel p.nextToken acc

/-- parseTernaryExpression (infix handler for `?`). -/
def Parser.parseTernaryExpression : Nat → Option Expr → Parser → Option Expr × Parser
  | 0, left, p => (left, p)
  | fuel + 1, condition, p =>
    let tok := p.curToken
    let p := p.nextToken
    let rt := Parser.parseExpression fuel precLowest p
    match rt.2.expectPeek COLON with
    | (false, p) => (none, p)
    | (true, p) =>
      let p := p.nextToken
      let rf := Parser.parseExpression fuel precLowest p
      (some (Expr.ternaryExpression tok condition rt.1 rf.1), rf.2)

end

/-- ParseProgram: run the top-level loop until EOF. -/
def Parser.ParseProgram (fuel : Nat) (p : Parser) : Program × Parser :=
  let r := Parser.parseProgramLoop fuel p []
  ({ statements := r.1 }, r.2)

/-- Parse a source string end to end: lexer, parser, program, with ample
fuel for the input size. -/
def parsePHP (s : String) : Program × Parser :=
  let input := bytesOf s
  Parser.ParseProgram (input.length * 2 + 64) (NewParser (Lexer.New input))

mutual

/-- Whether an expression contains an AssignmentExpression node. -/
def exprHasAssignment : Expr → Bool
  | Expr.assignmentExpression _ _ _ => true
  | Expr.identifier _ => false
  | Expr.varE _ => false
  | Expr.integerLiteral _ _ => false
  | Expr.floatLiteral _ _ => false
  | Expr.stringLiteral _ _ => false
  | Expr.booleanLiteral _ _ => false
  | Expr.interpolatedString _ parts => exprListHasAssignment parts
  | Expr.prefixExpression _ _ r => optHasAssignment r
  | Expr.infixExpression _ l _ r => optHasAssignment l || optHasAssignment r
  | Expr.postfixExpression _ l _ => optHasAssignment l
  | Expr.ternaryExpression _ c t f =>
    optHasAssignment c || optHasAssignment t || optHasAssignment f
  | Expr.callExpression _ f args => optHasAssignment f || optListHasAssignment args
  | Expr.newExpression _ _ args => optListHasAssignment args
  | Expr.objectAccessExpression _ o pr => optHasAssignment o || optHasAssignment pr
  | Expr.staticAccessExpression _ c pr => optHasAssignment c || optHasAssignment pr
  | Expr.indexExpression _ l i => optHasAssignment l || optHasAssignment i
  | Expr.arrayLiteral _ es => optListHasAssignment es
  | Expr.associativeArrayLiteral _ ps => pairListHasAssignment ps
  | Expr.anonymousFunction _ _ _ _ body => stmtListHasAssignment body
  | Expr.yieldExpression _ k v => optHasAssignment k || optHasAssignment v

/-- Lift of exprHasAssignment to a nilable child. -/
def optHasAssignment : Option Expr → Bool
  | none => false
  | some e => exprHasAssignment e

/-- Scan a list of expressions. -/
def exprListHasAssignment : List Expr → Bool
  | [] => false
  | e :: es => exprHasAssignment e || exprListHasAssignment es

/-- Scan a list of nilable expressions. -/
def optListHasAssignment : List (Option Expr) → Bool
  | [] => false
  | e :: es => optHasAssignment e || optListHasAssignment es

/-- Scan a list of key/value pairs. -/
def pairListHasAssignment : List (Option Expr × Option Expr) → Bool
  | [] => false
  | (k, v) :: es => optHasAssignment k || optHasAssignment v || pairListHasAssignment es

/-- Whether a statement contains an AssignmentExpression node. -/
def stmtHasAssignment : Stmt → Bool
  | Stmt.nilStmt _ => false
  | Stmt.expressionStatement _ e => optHasAssignment e
  | Stmt.blockStatement _ ss => stmtListHasAssignment ss
  | Stmt.functionDeclaration _ _ _ _ body => stmtListHasAssignment body
  | Stmt.returnStatement _ e => optHasAssignment e
  | Stmt.ifStatement _ c _ cons alt =>
    optHasAssignment c || stmtListHasAssignment cons ||
      (match alt with
       | some (_, ss) => stmtListHasAssignment ss
       | none => false)
  | Stmt.echoStatement _ vs => optListHasAssignment vs
  | Stmt.forStatement _ i c u _ body =>
    optHasAssignment i || optHasAssignment c || optHasAssignment u || stmtListHasAssignment body
  | Stmt.whileStatement _ c _ body => optHasAssignment c || stmtListHasAssignment body
  | Stmt.foreachStatement _ a _ _ _ body => optHasAssignment a || stmtListHasAssignment body
  | Stmt.breakStatement _ l => optHasAssignment l
  | Stmt.continueStatement _ l => optHasAssignment l
  | Stmt.classDeclaration _ _ _ _ _ props meths consts =>
    propListHasAssignment props || methodListHasAssignment meths || constListHasAssignment consts
  | Stmt.interfaceDeclaration _ _ _ => false
  | Stmt.traitDeclaration _ _ props meths =>
    propListHasAssignment props || methodListHasAssignment meths
  | Stmt.constantDeclaration c => constHasAssignment c
  | Stmt.namespaceDeclaration _ _ => false
  | Stmt.useStatement _ _ _ => false
  | Stmt.tryStatement _ _ body catches fin =>
    stmtListHasAssignment body || catchListHasAssignment catches ||
      (match fin with
       | some (_, ss) => stmtListHasAssignment ss
       | none => false)
  | Stmt.throwStatement _ e => optHasAssignment e

/-- Scan a property list. -/
def propListHasAssignment : List PropNode → Bool
  | [] => false
  | PropNode.mk _ _ _ _ v :: ps => optHasAssignment v || propListHasAssignment ps

/-- Scan a method list. -/
def methodListHasAssignment : List MethodNode → Bool
  | [] => false
  | MethodNode.mk _ _ _ _ _ _ body :: ms => stmtListHasAssignment body || methodListHasAssignment ms

/-- Scan a constant. -/
def constHasAssignment : ConstNode → Bool
  | ConstNode.mk _ _ _ v => optHasAssignment v

/-- Scan a constant list. -/
def constListHasAssignment : List ConstNode → Bool
  | [] => false
  | c :: cs => constHasAssignment c || constListHasAssignment cs

/-- Scan a catch list. -/
def catchListHasAssignment : List CatchNode → Bool
  | [] => false
  | CatchNode.mk _ _ _ _ body :: cs => stmtListHasAssignment body || catchListHasAssignment cs

/-- Scan a statement list. -/
def stmtListHasAssignment : List Stmt → Bool
  | [] => false
  | s :: ss => stmtHasAssignment s || stmtListHasAssignment ss

end

/-- Whether a parsed program contains any AssignmentExpression node. -/
def programHasAssignment (prog : Program) : Bool := stmtListHasAssignment prog.statements

/-- SymbolType from semantic.go. -/
inductive SymbolType : Type where
  | CLASS_SYMBOL | FUNCTION_SYMBOL | VARIABLE_SYMBOL
  | CONSTANT_SYMBOL | INTERFACE_SYMBOL | TRAIT_SYMBOL
  deriving DecidableEq, Repr

open SymbolType

/-- Symbol from semantic.go (renamed: `Symbol` exists in Mathlib and `Namespace` is a Lean keyword). -/
structure SymbolInfo where
  name : List Nat
  fullyQualified : List Nat
  type : SymbolType
  namespaceName : List Nat
  file : String
  line : Nat
  deriving DecidableEq, Repr

/-- SymbolReference from semantic.go. -/
structure SymbolReference where
  name : List Nat
  resolvedSymbol : Option SymbolInfo
  line : Nat
  column : Nat
  deriving DecidableEq, Repr

/-- One Scope record (semantic.go `Scope`).  The `Children` list of the Go
struct is write-only bookkeeping (nothing in the repository reads it), so
only the fields resolution and declaration read are modelled. -/
structure ScopeFrame where
  scopeType : String
  name : List Nat
  symbols : List (List Nat × SymbolInfo)
  namespaceName : List Nat
  imports : List (List Nat × List Nat)
  deriving DecidableEq, Repr

/-- SymbolTable from semantic.go.  CurrentScope plus its chain of Parent
pointers is kept as `current` and `parents` (innermost parent first);
EnterScope pushes, ExitScope pops. -/
structure SymbolTable where
  current : ScopeFrame
  parents : List ScopeFrame
  allSymbols : List (List Nat × SymbolInfo)
  references : List SymbolReference
  namespaces : List (List Nat × List SymbolInfo)
  classHierarchy : List (List Nat × List (List Nat))
  deriving Repr

/-- NewSymbolTable: one global scope, empty registries. -/
def NewSymbolTable : SymbolTable :=
  { current := { scopeType := "global", name := bytesOf "global", symbols := [],
                 namespaceName := [], imports := [] },
    parents := [], allSymbols := [], references := [], namespaces := [], classHierarchy := [] }

/-- EnterScope: the child scope inherits the namespace and copies the
parent's import table. -/
def SymbolTable.EnterScope (st : SymbolTable) (scopeType : String) (name : List Nat) : SymbolTable :=
  { st with
    current := { scopeType := scopeType, name := name, symbols := [],
                 namespaceName := st.current.namespaceName, imports := st.current.imports },
    parents := st.current :: st.parents }

/-- ExitScope (no-op at the global scope, whose Parent is nil). -/
def SymbolTable.ExitScope (st : SymbolTable) : SymbolTable :=
  match st.parents with
  | [] => st
  | sc :: rest => { st with current := sc, parents := rest }

/-- SetNamespace. -/
def SymbolTable.SetNamespace (st : SymbolTable) (ns : List Nat) : SymbolTable :=
  { st with current := { st.current with namespaceName := ns } }

/-- AddImport: an empty alias defaults to the last backslash-separated
segment of the fully qualified name. -/
def SymbolTable.AddImport (st : SymbolTable) (fullyQualified alias0 : List Nat) : SymbolTable :=
  let al := if alias0 = [] then (splitOnByte 92 fullyQualified).getLastD [] else alias0
  { st with current := { st.current with imports := mapInsert st.current.imports al fullyQualified } }

/-- HasPrefix(name, backslash) as used by ResolveSymbol and
makeFullyQualified. -/
def hasBackslashHead : List Nat → Bool
  | b :: _ => b = 92
  | [] => false

/-- makeFullyQualified. -/
def SymbolTable.makeFullyQualified (st : SymbolTable) (name : List Nat) : List Nat :=
  if hasBackslashHead name then name
  else if st.current.namespaceName = [] then name
  else st.current.namespaceName ++ [92] ++ name

/-- DeclareSymbol: returns the created symbol and the updated table
(current scope, global registry and namespace registry all updated). -/
def SymbolTable.DeclareSymbol (st : SymbolTable) (name : List Nat) (symbolType : SymbolType)
    (file : String) (line : Nat) : SymbolInfo × SymbolTable :=
  let fqn := st.makeFullyQualified name
  let symbol : SymbolInfo :=
    { name := name, fullyQualified := fqn, type := symbolType,
      namespaceName := st.current.namespaceName, file := file, line := line }
  let nss := match mapLookup st.namespaces symbol.namespaceName with
    | some l => mapInsert st.namespaces symbol.namespaceName (l ++ [symbol])
    | none => mapInsert st.namespaces symbol.namespaceName [symbol]
  (symbol,
   { st with
     current := { st.current with symbols := mapInsert st.current.symbols name symbol },
     allSymbols := mapInsert st.allSymbols fqn symbol,
     namespaces := nss })

/-- A looked-up symbol filtered by the expected kind (the
`exists && symbol.Type == symbolType` pattern of ResolveSymbol). -/
def symOfType (o : Option SymbolInfo) (ty : SymbolType) : Option SymbolInfo :=
  match o with
  | some s => if s.type = ty then some s else none
  | none => none

/-- Scope-chain walk of ResolveSymbol (step 3): innermost scope outwards;
a name present with the wrong kind falls through to the parent. -/
def resolveScopeChain : List ScopeFrame → List Nat → SymbolType → Option SymbolInfo
  | [], _, _ => none
  | sc :: rest, name, ty =>
    match mapLookup sc.symbols name with
    | some s => if s.type = ty then some s else resolveScopeChain rest name ty
    | none => resolveScopeChain rest name ty

/-- ResolveSymbol: (1) absolute names look only in the global registry;
otherwise (2) the import-alias table, (3) the scope chain, (4) the current
namespace, (5) the bare name in the global registry, in that order. -/
def SymbolTable.ResolveSymbol (st : SymbolTable) (name : List Nat) (ty : SymbolType) : Option SymbolInfo :=
  if hasBackslashHead name then
    symOfType (mapLookup st.allSymbols name) ty
  else
    let step2 : Option SymbolInfo :=
      match mapLookup st.current.imports name with
      | some fqn => symOfType (mapLookup st.allSymbols fqn) ty
      | none => none
    match step2 with
    | some s => some s
    | none =>
      match resolveScopeChain (st.current :: st.parents) name ty with
      | some s => some s
      | none =>
        let step4 : Option SymbolInfo :=
          if st.current.namespaceName ≠ [] then
            symOfType (mapLookup st.allSymbols (st.current.namespaceName ++ [92] ++ name)) ty
          else none
        match step4 with
        | some s => some s
        | none => symOfType (mapLookup st.allSymbols name) ty

/-- AddReference: resolve, then record the reference (resolved or not). -/
def SymbolTable.AddReference (st : SymbolTable) (name : List Nat) (ty : SymbolType)
    (line column : Nat) : SymbolReference × SymbolTable :=
  let ref : SymbolReference :=
    { name := name, resolvedSymbol := st.ResolveSymbol name ty, line := line, column := column }
  (ref, { st with references := st.references ++ [ref] })

/-- AddClassHierarchy. -/
def SymbolTable.AddClassHierarchy (st : SymbolTable) (className extendsName : List Nat)
    (implementsNames : List (List Nat)) : SymbolTable :=
  let hierarchy := (if extendsName ≠ [] then [extendsName] else []) ++ implementsNames
  { st with classHierarchy := mapInsert st.classHierarchy className hierarchy }

/-- SemanticAnalyzer state from semantic.go. -/
structure SemanticAnalyzer where
  symbolTable : SymbolTable
  currentFile : String
  errors : List String
  deriving Repr

/-- Declare through the analyzer (the `sa.SymbolTable.DeclareSymbol(...)`
calls, return value dropped). -/
def SemanticAnalyzer.declare (sa : SemanticAnalyzer) (name : List Nat) (ty : SymbolType)
    (line : Nat) : SemanticAnalyzer :=
  { sa with symbolTable := (sa.symbolTable.DeclareSymbol name ty sa.currentFile line).2 }

/-- Record a reference through the analyzer, returning it as Go does. -/
def SemanticAnalyzer.addRef (sa : SemanticAnalyzer) (name : List Nat) (ty : SymbolType)
    (line column : Nat) : SymbolReference × SemanticAnalyzer :=
  let r := sa.symbolTable.AddReference name ty line column
  (r.1, { sa with symbolTable := r.2 })

mutual

/-- visitStatement (semantic.go): dispatch by statement kind; kinds
missing from the Go type switch (break/continue/constant declarations at
statement level) fall through.  A typed-nil statement would crash the Go
walker on a nil dereference; it never occurs in the analyzed runs and is
left as a no-op. -/
def SemanticAnalyzer.visitStatement (sa : SemanticAnalyzer) : Stmt → SemanticAnalyzer
  | Stmt.namespaceDeclaration _ name =>
    { sa with symbolTable := sa.symbolTable.SetNamespace name.value }
  | Stmt.useStatement _ ns al =>
    let alias0 := match al with
      | some a => a.value
      | none => []
    { sa with symbolTable := sa.symbolTable.AddImport ns.value alias0 }
  | Stmt.classDeclaration tok name superC interfaces _ props meths consts =>
    let r := sa.symbolTable.DeclareSymbol name.value CLASS_SYMBOL sa.currentFile tok.line
    let sa := { sa with symbolTable := r.2 }
    let extendsName := match superC with
      | some s => s.value
      | none => []
    let st := sa.symbolTable.AddClassHierarchy r.1.fullyQualified extendsName
      (interfaces.map (fun i => i.value))
    let sa := { sa with symbolTable := st.EnterScope "class" name.value }
    let sa := sa.visitConsts consts
    let sa := sa.visitProps props
    let sa := sa.visitMethods meths
    { sa with symbolTable := sa.symbolTable.ExitScope }
  | Stmt.interfaceDeclaration tok name meths =>
    let sa := sa.declare name.value INTERFACE_SYMBOL tok.line
    let sa := { sa with symbolTable := sa.symbolTable.EnterScope "interface" name.value }
    let sa := meths.foldl (fun sa (m : InterfaceMethodNode) =>
      sa.declare m.name.value FUNCTION_SYMBOL m.token.line) sa
    { sa with symbolTable := sa.symbolTable.ExitScope }
  | Stmt.traitDeclaration tok name props meths =>
    let sa := sa.declare name.value TRAIT_SYMBOL tok.line
    let sa := { sa with symbolTable := sa.symbolTable.EnterScope "trait" name.value }
    let sa := sa.visitProps props
    let sa := sa.visitMethods meths
    { sa with symbolTable := sa.symbolTable.ExitScope }
  | Stmt.functionDeclaration tok name params _ body =>
    let sa := sa.declare name.value FUNCTION_SYMBOL tok.line
    let sa := { sa with symbolTable := sa.symbolTable.EnterScope "function" name.value }
    let sa := params.foldl (fun sa (v : VarNode) =>
      sa.declare v.name VARIABLE_SYMBOL v.token.line) sa
    let sa := sa.visitStatements body
    { sa with symbolTable := sa.symbolTable.ExitScope }
  | Stmt.expressionStatement _ e => sa.visitExpressionO e
  | Stmt.blockStatement _ ss => sa.visitStatements ss
  | Stmt.ifStatement _ c _ cons alt =>
    let sa := sa.visitExpressionO c
    let sa := sa.visitStatements cons
    (match alt with
     | some (_, ss) => sa.visitStatements ss
     | none => sa)
  | Stmt.forStatement _ i c u _ body =>
    let sa := sa.visitExpressionO i
    let sa := sa.visitExpressionO c
    let sa := sa.visitExpressionO u
    sa.visitStatements body
  | Stmt.whileStatement _ c _ body =>
    let sa := sa.visitExpressionO c
    sa.visitStatements body
  | Stmt.foreachStatement tok arr key value _ body =>
    let sa := sa.visitExpressionO arr
    let sa := match key with
      | some k => sa.declare k.name VARIABLE_SYMBOL tok.line
      | none => sa
    let sa := sa.declare value.name VARIABLE_SYMBOL tok.line
    sa.visitStatements body
  | Stmt.returnStatement _ rv =>
    (match rv with
     | some e => sa.visitExpression e
     | none => sa)
  | Stmt.echoStatement _ vs => sa.visitExprList vs
  | Stmt.tryStatement _ _ body catches fin =>
    let sa := sa.visitStatements body
    let sa := sa.visitCatches catches
    (match fin with
     | some (_, ss) => sa.visitStatements ss
     | none => sa)
  | Stmt.throwStatement _ e => sa.visitExpressionO e
  | _ => sa

/-- Statement-list walk (visitProgram / visitBlockStatement bodies). -/
def SemanticAnalyzer.visitStatements (sa : SemanticAnalyzer) : List Stmt → SemanticAnalyzer
  | [] => sa
  | s :: ss => (sa.visitStatement s).visitStatements ss

/-- visitExpression on a nilable child: the Go type switch on a nil
Expression interface matches no case. -/
def SemanticAnalyzer.visitExpressionO (sa : SemanticAnalyzer) : Option Expr → SemanticAnalyzer
  | none => sa
  | some e => sa.visitExpression e

/-- visitExpression (semantic.go); literal kinds, variables and
interpolated strings have no case in the Go switch. -/
def SemanticAnalyzer.visitExpression (sa : SemanticAnalyzer) : Expr → SemanticAnalyzer
  | Expr.newExpression tok className args =>
    let r := sa.addRef className.value CLASS_SYMBOL tok.line 0
    r.2.visitExprList args
  | Expr.callExpression tok fn args =>
    let sa := match fn with
      | some (Expr.identifier idn) => (sa.addRef idn.value FUNCTION_SYMBOL tok.line 0).2
      | _ => sa.visitExpressionO fn
    sa.visitExprList args
  | Expr.objectAccessExpression _ obj prop =>
    (sa.visitExpressionO obj).visitExpressionO prop
  | Expr.staticAccessExpression tok cls prop =>
    let sa := match cls with
      | some (Expr.identifier idn) => (sa.addRef idn.value CLASS_SYMBOL tok.line 0).2
      | _ => sa.visitExpressionO cls
    sa.visitExpressionO prop
  | Expr.assignmentExpression tok name value =>
    let sa := sa.declare name.name VARIABLE_SYMBOL tok.line
    sa.visitExpressionO value
  | Expr.infixExpression _ l _ r => (sa.visitExpressionO l).visitExpressionO r
  | Expr.prefixExpression _ _ r => sa.visitExpressionO r
  | Expr.postfixExpression _ l _ => sa.visitExpressionO l
  | Expr.arrayLiteral _ es => sa.visitExprList es
  | Expr.associativeArrayLiteral _ ps => sa.visitPairList ps
  | Expr.indexExpression _ l i => (sa.visitExpressionO l).visitExpressionO i
  | Expr.anonymousFunction _ params useC _ body =>
    let sa := { sa with symbolTable := sa.symbolTable.EnterScope "function" (bytesOf "anonymous") }
    let sa := params.foldl (fun sa (v : VarNode) =>
      sa.declare v.name VARIABLE_SYMBOL v.token.line) sa
    let sa := useC.foldl (fun sa (v : VarNode) =>
      (sa.addRef v.name VARIABLE_SYMBOL v.token.line 0).2) sa
    let sa := sa.visitStatements body
    { sa with symbolTable := sa.symbolTable.ExitScope }
  | Expr.yieldExpression _ k v =>
    let sa := match k with
      | some e => sa.visitExpression e
      | none => sa
    (match v with
     | some e => sa.visitExpression e
     | none => sa)
  | Expr.ternaryExpression _ c t f =>
    ((sa.visitExpressionO c).visitExpressionO t).visitExpressionO f
  | Expr.identifier idn =>
    -- addIdentifierReference: try function, then constant
    let r := sa.addRef idn.value FUNCTION_SYMBOL idn.token.line 0
    (match r.1.resolvedSymbol with
     | none => (r.2.addRef idn.value CONSTANT_SYMBOL idn.token.line 0).2
     | some _ => r.2)
  | _ => sa

/-- Expression-list walk (call arguments, echo values, array elements). -/
def SemanticAnalyzer.visitExprList (sa : SemanticAnalyzer) : List (Option Expr) → SemanticAnalyzer
  | [] => sa
  | e :: es => (sa.visitExpressionO e).visitExprList es

/-- Pair-list walk of visitAssociativeArrayLiteral (key then value). -/
def SemanticAnalyzer.visitPairList (sa : SemanticAnalyzer) :
    List (Option Expr × Option Expr) → SemanticAnalyzer
  | [] => sa
  | (k, v) :: ps => ((sa.visitExpressionO k).visitExpressionO v).visitPairList ps

/-- visitConstantDeclaration over a class-constant list. -/
def SemanticAnalyzer.visitConsts (sa : SemanticAnalyzer) : List ConstNode → SemanticAnalyzer
  | [] => sa
  | ConstNode.mk tok _ name value :: cs =>
    let sa := sa.declare name.value CONSTANT_SYMBOL tok.line
    (sa.visitExpressionO value).visitConsts cs

/-- visitPropertyDeclaration over a property list. -/
def SemanticAnalyzer.visitProps (sa : SemanticAnalyzer) : List PropNode → SemanticAnalyzer
  | [] => sa
  | PropNode.mk tok _ _ name value :: ps =>
    let sa := sa.declare name.name VARIABLE_SYMBOL tok.line
    let sa := match value with
      | some e => sa.visitExpression e
      | none => sa
    sa.visitProps ps

/-- visitMethodDeclaration over a method list. -/
def SemanticAnalyzer.visitMethods (sa : SemanticAnalyzer) : List MethodNode → SemanticAnalyzer
  | [] => sa
  | MethodNode.mk tok _ _ name params _ body :: ms =>
    let sa := sa.declare name.value FUNCTION_SYMBOL tok.line
    let sa := { sa with symbolTable := sa.symbolTable.EnterScope "method" name.value }
    let sa := params.foldl (fun sa (v : VarNode) =>
      sa.declare v.name VARIABLE_SYMBOL v.token.line) sa
    let sa := sa.visitStatements body
    let sa := { sa with symbolTable := sa.symbolTable.ExitScope }
    sa.visitMethods ms

/-- visitCatchClause over the catch list. -/
def SemanticAnalyzer.visitCatches (sa : SemanticAnalyzer) : List CatchNode → SemanticAnalyzer
  | [] => sa
  | CatchNode.mk tok excType v _ body :: cs =>
    let sa := match excType with
      | some e => (sa.addRef e.value CLASS_SYMBOL tok.line 0).2
      | none => sa
    let sa := sa.declare v.name VARIABLE_SYMBOL tok.line
    let sa := sa.visitStatements body
    sa.visitCatches cs

end

/-- NewSemanticAnalyzer. -/
def NewSemanticAnalyzer : SemanticAnalyzer :=
  { symbolTable := NewSymbolTable, currentFile := "", errors := [] }

/-- AnalyzeProgram: set the file and walk the program statements. -/
def AnalyzeProgram (sa : SemanticAnalyzer) (prog : Program) (filename : String) : SemanticAnalyzer :=
  ({ sa with currentFile := filename } : SemanticAnalyzer).visitStatements prog.statements

/-- ParseWithSemantics (semantic_ast.go): parse, refuse when the parser
accumulated errors, otherwise run the analyzer over the program. -/
def ParseWithSemantics (input : String) (filename : String) : Option SemanticAnalyzer :=
  let r := parsePHP input
  if r.2.errors.length > 0 then none
  else some (AnalyzeProgram NewSemanticAnalyzer r.1 filename)

/-- Whether some reference in a list with the given name resolved to a
symbol with the given fully qualified name. -/
def existsRefResolvedTo (refs : List SymbolReference) (n fq : List Nat) : Bool :=
  refs.any (fun r => r.name == n &&
    (match r.resolvedSymbol with
     | some s => s.fullyQualified == fq
     | none => false))

/-- Whether every reference in a list is unresolved. -/
def allRefsUnresolved (refs : List SymbolReference) : Bool :=
  refs.all (fun r => r.resolvedSymbol.isNone)

/-- Input of concrete scenario A. -/
def c1Input : String := "<?php $x = 5 + 3 * 2; ?>"

/-- Shape asserted by scenario A: exactly one ExpressionStatement wrapping
an AssignmentExpression to `$x` whose value is `+` applied to
IntegerLiteral 5 and `*`(IntegerLiteral 3, IntegerLiteral 2). -/
def c1Shape : List Stmt → Bool
  | [Stmt.expressionStatement _ (some (Expr.assignmentExpression _ v
      (some (Expr.infixExpression _ (some (Expr.integerLiteral _ 5)) op
        (some (Expr.infixExpression _ (some (Expr.integerLiteral _ 3)) op2
          (some (Expr.integerLiteral _ 2))))))))] =>
    v.name == bytesOf "x" && op == bytesOf "+" && op2 == bytesOf "*"
  | _ => false

/-- C1: multiplication binds tighter than addition.  Parsing
`<?php $x = 5 + 3 * 2; ?>` yields exactly one ExpressionStatement wrapping
an AssignmentExpression whose value is InfixExpression `+` with left
IntegerLiteral 5 and right InfixExpression `*` over 3 and 2, with zero
parser errors; and in the precedence table driving the climbing loop,
PLUS sits at SUM, MULTIPLY at PRODUCT, and SUM < PRODUCT, which is what
makes `a + b * c` parse as `a + (b * c)` in general. -/
theorem C1_multiplication_binds_tighter :
    c1Shape (parsePHP c1Input).1.statements = true ∧
    (parsePHP c1Input).2.errors = [] ∧
    precedences PLUS = some precSum ∧
    precedences MULTIPLY = some precProduct ∧
    precSum < precProduct := by
  refine ⟨by rfl, by rfl, rfl, rfl, by decide⟩

/-- C2: the lexer prefers the longest multi-character operator: `<=>` is
one SPACESHIP token (not LT followed by anything) and `??=` is one
QUESTION_QUESTION_ASSIGN token (not QUESTION_QUESTION then ASSIGN); in
both cases the token stream before EOF is exactly that single token. -/
theorem C2_longest_operator_match :
    tokenize (bytesOf "<=>") =
      [{ type := SPACESHIP, literal := bytesOf "<=>", line := 1, column := 3 }] ∧
    tokenize (bytesOf "??=") =
      [{ type := QUESTION_QUESTION_ASSIGN, literal := bytesOf "??=", line := 1, column := 3 }] := by
  exact ⟨by rfl, by rfl⟩

/-- Input with exactly one unsupported token placed where it breaks the
expected-token sequence of a function declaration. -/
def c3BadInput : String := "<?php function & () {} ?>"

/-- C3 counterexample: `<?php function & () {} ?>` contains exactly one
unsupported (ILLEGAL) token, yet parse_program records six errors, not
exactly one. -/
theorem C3_counterexample :
    ((tokenize (bytesOf c3BadInput)).filter (fun t => decide (t.type = ILLEGAL))).length = 1 ∧
    (parsePHP c3BadInput).2.errors =
      ["expected next token to be IDENT, got ILLEGAL instead",
       "no prefix parse function for ILLEGAL found",
       "no prefix parse function for RPAREN found",
       "expected next token to be RPAREN, got LBRACE instead",
       "no prefix parse function for LBRACE found",
       "no prefix parse function for RBRACE found"] ∧
    (6 : Nat) ≠ 1 := by
  refine ⟨by rfl, by rfl, by decide⟩

/-- The spec's own exemplar: a lone `&` between two statements. -/
def c3Input : String := "<?php $a = 1; & $b = 2; ?>"

/-- Shape of the program parsed from `c3Input`: the assignment statements
before and after the bad token survive, with one extra ExpressionStatement
holding a nil expression at the ILLEGAL token. -/
def c3Shape : List Stmt → Bool
  | [Stmt.expressionStatement _ (some (Expr.assignmentExpression _ va
       (some (Expr.integerLiteral _ 1)))),
     Stmt.expressionStatement tb none,
     Stmt.expressionStatement _ (some (Expr.assignmentExpression _ vb
       (some (Expr.integerLiteral _ 2))))] =>
    va.name == bytesOf "a" && vb.name == bytesOf "b" && decide (tb.type = ILLEGAL)
  | _ => false

/-- C3 amended: when the lone unsupported token sits in expression-
statement position (the spec's lone-`&` example), the returned program
keeps the statements before and after it and exactly one error (the
no-prefix-handler diagnostic) is recorded; an unsupported token that
breaks an expected-token sequence instead yields several errors (see the
counterexample). -/
theorem C3_error_nonfatality :
    ((tokenize (bytesOf c3Input)).filter (fun t => decide (t.type = ILLEGAL))).length = 1 ∧
    c3Shape (parsePHP c3Input).1.statements = true ∧
    (parsePHP c3Input).2.errors = ["no prefix parse function for ILLEGAL found"] := by
  refine ⟨by rfl, by rfl, by rfl⟩

/-- The spec's rejected-assignment input. -/
def c4Input : String := "<?php 5 = $x; ?>"

/-- A non-variable left-hand side reached through `??=` instead. -/
def c4CoalesceInput : String := "<?php 5 ??= $x; ?>"

/-- C4 counterexample: parsing `5 = $x;` records only the error
"no prefix parse function for ASSIGN found" — the claimed error
"left side of assignment must be a variable" is never recorded —
and produces no AssignmentExpression node. -/
theorem C4_counterexample :
    (parsePHP c4Input).2.errors = ["no prefix parse function for ASSIGN found"] ∧
    ¬ "left side of assignment must be a variable" ∈ (parsePHP c4Input).2.errors ∧
    programHasAssignment (parsePHP c4Input).1 = false := by
  refine ⟨by rfl, by decide, by rfl⟩

/-- C4 amended: `=` is registered as an infix handler whose left side must
be a Variable node, but ASSIGN has no entry in the precedence table, so
the climbing loop never advances onto `=` and `5 = $x` instead leaves the
`=` to start a statement, recording the no-prefix-handler error and
producing no AssignmentExpression; the "left side of assignment must be a
variable" error is reachable through the `??=` operator, which shares the
handler and does have a precedence entry (e.g. `5 ??= $x`). -/
theorem C4_assignment_error_path :
    hasInfixFn ASSIGN = true ∧
    precedences ASSIGN = none ∧
    (parsePHP c4Input).2.errors = ["no prefix parse function for ASSIGN found"] ∧
    programHasAssignment (parsePHP c4Input).1 = false ∧
    (parsePHP c4CoalesceInput).2.errors = ["left side of assignment must be a variable"] ∧
    programHasAssignment (parsePHP c4CoalesceInput).1 = false := by
  refine ⟨rfl, rfl, by rfl, by rfl, by rfl, by rfl⟩

/-- C5 counterexample: on the empty input the first call returns EOF at
line 1 column 1, and the second call returns EOF at line 1 column 2 — not
the same position. -/
theorem C5_counterexample :
    ((Lexer.New (bytesOf "")).nextTok).1 = { type := EOF, literal := [], line := 1, column := 1 } ∧
    (((Lexer.New (bytesOf "")).nextTok).2.nextTok).1 =
      { type := EOF, literal := [], line := 1, column := 2 } ∧
    (2 : Nat) ≠ 1 := by
  refine ⟨by rfl, by rfl, by decide⟩

/-- Iterate the lexer n tokens forward. -/
def lexAfter : Nat → Lexer → Lexer
  | 0, l => l
  | n + 1, l => lexAfter n (l.nextTok).2

/-- skipWhitespace leaves a state whose current character is 0 unchanged,
for any fuel. -/
theorem skipWhitespace_done (fuel : Nat) (l : Lexer) (h : l.ch = 0) :
    Lexer.skipWhitespace fuel l = l := by
  cases fuel with
  | zero => rfl
  | succ n => rw [Lexer.skipWhitespace]; simp [h]

/-- One NextToken step from an at-end state (for any positive fuel): an
EOF token carrying the current position, and a successor state still at
end whose column the trailing readChar has advanced. -/
theorem nextToken_at_end (fuel : Nat) (l : Lexer) (h0 : l.ch = 0)
    (h1 : l.input.length ≤ l.readPosition) :
    Lexer.NextToken (fuel + 1) l =
      ({ type := EOF, literal := [], line := l.line, column := l.column },
       { input := l.input, position := l.readPosition, readPosition := l.readPosition + 1,
         ch := 0, line := l.line, column := l.column + 1 }) := by
  rw [Lexer.NextToken]
  simp only [skipWhitespace_done _ _ h0, h0]
  simp [Lexer.readChar, h1]

/-- The ample-fuel wrapper inherits the at-end step. -/
theorem nextTok_at_end (l : Lexer) (h0 : l.ch = 0)
    (h1 : l.input.length ≤ l.readPosition) :
    l.nextTok =
      ({ type := EOF, literal := [], line := l.line, column := l.column },
       { input := l.input, position := l.readPosition, readPosition := l.readPosition + 1,
         ch := 0, line := l.line, column := l.column + 1 }) := by
  have hk : l.input.length + 2 = (l.input.length + 1) + 1 := rfl
  rw [Lexer.nextTok, hk, nextToken_at_end _ _ h0 h1]

/-- C5 amended: once the lexer has reached the true end of the input
(current character 0 with the read cursor past the input, which is where
the first EOF of any NUL-free input is produced), every subsequent
next_token call returns an EOF token on the same line, but the reported
column grows by one on every call, because the trailing readChar past the
end still increments the column; the n-th call from such a state reports
column `column + n`. -/
theorem C5_eof_column_drift (l : Lexer) (h0 : l.ch = 0)
    (h1 : l.input.length ≤ l.readPosition) (n : Nat) :
    ((lexAfter n l).nextTok).1.type = EOF ∧
    ((lexAfter n l).nextTok).1.line = l.line ∧
    ((lexAfter n l).nextTok).1.column = l.column + n := by
  induction n generalizing l with
  | zero =>
    rw [lexAfter, nextTok_at_end l h0 h1]
    exact ⟨rfl, rfl, rfl⟩
  | succ n ih =>
    rw [lexAfter, nextTok_at_end l h0 h1]
    have h := ih (Lexer.mk l.input l.readPosition (l.readPosition + 1) 0 l.line (l.column + 1))
      rfl (Nat.le_succ_of_le h1)
    exact ⟨h.1, h.2.1, Eq.trans h.2.2 (by dsimp only; omega)⟩

/-- Witness for C5_eof_column_drift at the concrete at-end state produced
by lexing the empty input. -/
theorem C5_eof_column_drift_witness :
    (({ input := [], position := 0, readPosition := 1, ch := 0, line := 1, column := 1 } : Lexer)).ch = 0 ∧
    ((lexAfter 3 { input := [], position := 0, readPosition := 1, ch := 0, line := 1, column := 1 }).nextTok).1.type = EOF ∧
    ((lexAfter 3 { input := [], position := 0, readPosition := 1, ch := 0, line := 1, column := 1 }).nextTok).1.column = 1 + 3 := by
  have h := C5_eof_column_drift
    { input := [], position := 0, readPosition := 1, ch := 0, line := 1, column := 1 }
    rfl (by decide) 3
  exact ⟨rfl, h.1, h.2.2⟩

/-- Input of concrete scenario D (namespace, use-import, class, new). -/
def c6Input : String :=
  "<?php namespace Payroll; use HR\\User; class Payroll {} $u = new User(); ?>"

/-- The analyzer state after walking the program parsed from `c6Input`
(AnalyzeProgram is reachable even though the parser records an error for
the `\` the use-statement leaves behind). -/
def c6Analyzer : SemanticAnalyzer :=
  AnalyzeProgram NewSemanticAnalyzer (parsePHP c6Input).1 "payroll.php"

/-- C6 counterexample: on scenario D no reference named `User` resolves to
`HR\User` — every reference the analyzer records (all three are named
`User`) is unresolved, because parseUseStatement captures only the first
segment `HR` of `use HR\User;` and no `HR\User` symbol is ever declared;
ParseWithSemantics refuses the input outright over the parse error for
the leftover `\`. -/
theorem C6_counterexample :
    existsRefResolvedTo c6Analyzer.symbolTable.references (bytesOf "User") (bytesOf "HR\\User") = false ∧
    c6Analyzer.symbolTable.references.length = 3 ∧
    allRefsUnresolved c6Analyzer.symbolTable.references = true ∧
    ParseWithSemantics c6Input "payroll.php" = none := by
  refine ⟨by rfl, by rfl, by rfl, by rfl⟩

/-- C6 amended: in ResolveSymbol the import-alias table is indeed
consulted before namespace-relative lookup — whenever a non-absolute name
has an import entry whose target is a declared symbol of the requested
kind, that symbol is returned, regardless of any same-named symbol in the
current namespace — but on scenario D the use statement registers only
the alias `HR -> HR` (the parser keeps just the first path segment) and
`HR\User` is never declared, so the `User` reference at the `new` site is
unresolved rather than resolved to `HR\User`. -/
theorem C6_import_precedence (st : SymbolTable) (name fqn : List Nat) (s : SymbolInfo)
    (ty : SymbolType) (h0 : hasBackslashHead name = false)
    (h1 : mapLookup st.current.imports name = some fqn)
    (h2 : mapLookup st.allSymbols fqn = some s) (h3 : s.type = ty) :
    st.ResolveSymbol name ty = some s ∧
    c6Analyzer.symbolTable.current.imports = [(bytesOf "HR", bytesOf "HR")] ∧
    allRefsUnresolved c6Analyzer.symbolTable.references = true := by
  refine ⟨?_, by rfl, by rfl⟩
  rw [SymbolTable.ResolveSymbol]
  simp [h0, h1, h2, symOfType, h3]

/-- A `HR\User` class symbol for the C6 witness table. -/
def c6HrUser : SymbolInfo :=
  { name := bytesOf "User", fullyQualified := bytesOf "HR\\User", type := CLASS_SYMBOL,
    namespaceName := bytesOf "HR", file := "hr.php", line := 1 }

/-- A competing `Payroll\User` class symbol for the C6 witness table. -/
def c6PayrollUser : SymbolInfo :=
  { name := bytesOf "User", fullyQualified := bytesOf "Payroll\\User", type := CLASS_SYMBOL,
    namespaceName := bytesOf "Payroll", file := "payroll.php", line := 2 }

/-- A symbol table in namespace Payroll whose import table maps `User` to
`HR\User` while a `Payroll\User` symbol also exists. -/
def c6WitnessTable : SymbolTable :=
  { current := { scopeType := "global", name := bytesOf "global", symbols := [],
                 namespaceName := bytesOf "Payroll",
                 imports := [(bytesOf "User", bytesOf "HR\\User")] },
    parents := [],
    allSymbols := [(bytesOf "HR\\User", c6HrUser), (bytesOf "Payroll\\User", c6PayrollUser)],
    references := [], namespaces := [], classHierarchy := [] }

/-- Witness for C6_import_precedence: with the alias table populated, the
imported symbol wins over the same-named symbol in the current
namespace. -/
theorem C6_import_precedence_witness :
    hasBackslashHead (bytesOf "User") = false ∧
    c6WitnessTable.ResolveSymbol (bytesOf "User") CLASS_SYMBOL = some c6HrUser := by
  have h := C6_import_precedence c6WitnessTable (bytesOf "User") (bytesOf "HR\\User")
    c6HrUser CLASS_SYMBOL rfl rfl rfl rfl
  exact ⟨rfl, h.1⟩

/-- Shape of `break 2 + 1;`: the level is the InfixExpression `+` over
IntegerLiteral 2 and IntegerLiteral 1. -/
def c7BreakShape : List Stmt → Bool
  | [Stmt.breakStatement _ (some (Expr.infixExpression _ (some (Expr.integerLiteral _ 2)) op
      (some (Expr.integerLiteral _ 1))))] => op == bytesOf "+"
  | _ => false

/-- Shape of `continue 2 + 1;` with the same compound level. -/
def c7ContinueShape : List Stmt → Bool
  | [Stmt.continueStatement _ (some (Expr.infixExpression _ (some (Expr.integerLiteral _ 2)) op
      (some (Expr.integerLiteral _ 1))))] => op == bytesOf "+"
  | _ => false

/-- Whether the single break/continue statement carries a bare
IntegerLiteral as its level. -/
def levelIsBareIntegerLiteral : List Stmt → Bool
  | [Stmt.breakStatement _ (some (Expr.integerLiteral _ _))] => true
  | [Stmt.continueStatement _ (some (Expr.integerLiteral _ _))] => true
  | _ => false

/-- C7 counterexample: `break 2 + 1;` parses without errors into a
BreakStatement whose Level is the InfixExpression `2 + 1`, not the bare
integer literal the claim asserts. -/
theorem C7_counterexample :
    c7BreakShape (parsePHP "<?php break 2 + 1; ?>").1.statements = true ∧
    levelIsBareIntegerLiteral (parsePHP "<?php break 2 + 1; ?>").1.statements = false ∧
    (parsePHP "<?php break 2 + 1; ?>").2.errors = [] := by
  refine ⟨by rfl, by rfl, by rfl⟩

/-- C7 amended: break/continue consume a level only when the token right
after the keyword is an INT (otherwise the Level stays nil, for every
parser state), but the level is then parsed as a full expression at
LOWEST precedence, so it can be a larger expression such as `2 + 1`. -/
theorem C7_break_level_rules (fuel : Nat) (p : Parser) (h : p.peekToken.type ≠ INT) :
    (Parser.parseBreakStatement (fuel + 1) p).1 = Stmt.breakStatement p.curToken none ∧
    (Parser.parseContinueStatement (fuel + 1) p).1 = Stmt.continueStatement p.curToken none ∧
    c7BreakShape (parsePHP "<?php break 2 + 1; ?>").1.statements = true ∧
    c7ContinueShape (parsePHP "<?php continue 2 + 1; ?>").1.statements = true := by
  refine ⟨?_, ?_, by rfl, by rfl⟩
  · rw [Parser.parseBreakStatement]
    simp [Parser.peekTokenIs, h]
  · rw [Parser.parseContinueStatement]
    simp [Parser.peekTokenIs, h]

/-- Witness for C7_break_level_rules at the parser state primed on
`break;`, whose peek token is the SEMICOLON, not an INT. -/
theorem C7_break_level_rules_witness :
    (NewParser (Lexer.New (bytesOf "break;"))).peekToken.type = SEMICOLON ∧
    (Parser.parseBreakStatement 5 (NewParser (Lexer.New (bytesOf "break;")))).1 =
      Stmt.breakStatement (NewParser (Lexer.New (bytesOf "break;"))).curToken none := by
  have h := C7_break_level_rules 4 (NewParser (Lexer.New (bytesOf "break;"))) (by decide)
  exact ⟨by rfl, h.1⟩

/-- C8 counterexample: in the input `==` the operator's first character
sits at column 1 (the freshly constructed lexer is looking at it there),
yet the returned EQ token reports column 2 — the position of the second
character, not the first. -/
theorem C8_counterexample :
    (Lexer.New (bytesOf "==")).column = 1 ∧
    tokenize (bytesOf "==") = [{ type := EQ, literal := bytesOf "==", line := 1, column := 2 }] ∧
    (2 : Nat) ≠ 1 := by
  refine ⟨by rfl, by rfl, by decide⟩

/-- C8 amended: the reported position depends on the token class.
Single-character tokens and identifiers/keywords carry their first
character's line/column; multi-character operators carry the position of
their last character (`==` starting at column 1 reports column 2, `<=>`
reports column 3); INT and VARIABLE tokens report the column one past the
token text; STRING tokens report the closing delimiter's position. -/
theorem C8_token_positions :
    tokenize (bytesOf "+") = [{ type := PLUS, literal := bytesOf "+", line := 1, column := 1 }] ∧
    tokenize (bytesOf "abc") = [{ type := IDENT, literal := bytesOf "abc", line := 1, column := 1 }] ∧
    tokenize (bytesOf "==") = [{ type := EQ, literal := bytesOf "==", line := 1, column := 2 }] ∧
    tokenize (bytesOf "<=>") = [{ type := SPACESHIP, literal := bytesOf "<=>", line := 1, column := 3 }] ∧
    tokenize (bytesOf "123") = [{ type := INT, literal := bytesOf "123", line := 1, column := 4 }] ∧
    tokenize (bytesOf "$ab") = [{ type := VARIABLE, literal := bytesOf "$ab", line := 1, column := 4 }] ∧
    tokenize (bytesOf "\"ab\"") = [{ type := STRING, literal := bytesOf "ab", line := 1, column := 4 }] := by
  refine ⟨by rfl, by rfl, by rfl, by rfl, by rfl, by rfl, by rfl⟩

/-- C9: the infix-climbing loop of parse_expression returns the left-hand
side unchanged, with the parser state untouched, whenever the peek token
is a SEMICOLON — for every fuel, caller precedence and left expression,
regardless of the peek token's precedence. -/
theorem C9_semicolon_stops_infix_loop (fuel precedence : Nat) (left : Option Expr) (p : Parser)
    (h : p.peekToken.type = SEMICOLON) :
    Parser.parseExpressionLoop fuel precedence left p = (left, p) := by
  cases fuel with
  | zero => rfl
  | succ n =>
    rw [Parser.parseExpressionLoop]
    simp [Parser.peekTokenIs, h]

/-- Witness for C9 at the parser state primed on `x;`, whose peek token
is the SEMICOLON. -/
theorem C9_semicolon_stops_infix_loop_witness :
    (NewParser (Lexer.New (bytesOf "x;"))).peekToken.type = SEMICOLON ∧
    Parser.parseExpressionLoop 9 precLowest (some (Expr.booleanLiteral zeroToken true))
      (NewParser (Lexer.New (bytesOf "x;"))) =
      (some (Expr.booleanLiteral zeroToken true), NewParser (Lexer.New (bytesOf "x;"))) := by
  exact ⟨by rfl, C9_semicolon_stops_infix_loop 9 precLowest _ _ (by rfl)⟩

/-- Shape of `$x = 010;`: one assignment whose value is IntegerLiteral 8. -/
def c10OctShape : List Stmt → Bool
  | [Stmt.expressionStatement _ (some (Expr.assignmentExpression _ v
      (some (Expr.integerLiteral _ 8))))] => v.name == bytesOf "x"
  | _ => false

/-- Shape of `$x = 08;`: one assignment whose value is nil (no
IntegerLiteral node was produced). -/
def c10BadShape : List Stmt → Bool
  | [Stmt.expressionStatement _ (some (Expr.assignmentExpression _ v none))] =>
    v.name == bytesOf "x"
  | _ => false

/-- C10: integer literals go through strconv.ParseInt with base 0, so a
leading-zero run is octal: `$x = 010;` yields IntegerLiteral 8 with no
errors, while `08` (an 8 in an octal literal) records exactly the error
`could not parse "08" as integer` and yields no IntegerLiteral node. -/
theorem C10_integer_base_autodetect :
    goParseInt (bytesOf "010") = some 8 ∧
    goParseInt (bytesOf "08") = none ∧
    c10OctShape (parsePHP "<?php $x = 010; ?>").1.statements = true ∧
    (parsePHP "<?php $x = 010; ?>").2.errors = [] ∧
    c10BadShape (parsePHP "<?php $x = 08; ?>").1.statements = true ∧
    (parsePHP "<?php $x = 08; ?>").2.errors = ["could not parse \"08\" as integer"] := by
  refine ⟨by rfl, by rfl, by rfl, by rfl, by rfl, by rfl⟩
